import Mathlib

/-!
Verification of the jira-fork-tool synchronization engine.

This file gives a shallow embedding, in Lean 4, of the core of the
jira-fork-tool repository (src/jira_fork_tool): the content normalizer
(sync/content_handler.py), the type/status/link-type mappers
(sync/link_mapper.py and sync/__init__.py), the issue-number gap detector,
and the sequential transfer engine with its durable state store
(sync/__init__.py and utils/__init__.py), together with theorems settling
the specification claims about them.

Modelling conventions:
* Python `str` values are modelled as `List Char` (`Str`); `len` is
  `List.length`, slicing is `List.take` / `List.drop`.
* Python dicts that are used as ordered key-value maps are association
  lists with Python dict semantics: assignment replaces the value in place
  for an existing key and appends otherwise; lookup finds the unique entry.
* Remote API calls are oracles carried by an `Env` record; each call
  returns `Except Str α` where an `error` is a raised `APIError`.
* Fallible code paths return `Except`; `try/except` blocks become matches.
* Wall-clock timestamps, logging output and float-valued statistics are
  outside the model (none of them feed back into control flow).
* SQLite persistence in `StateManager` is modelled as a `World` record of
  tables.  Methods of `StateManager` that are called by the engine but are
  not implemented in the repository (the issue-mapping and
  project-analysis accessors) are modelled from the specification, and are
  marked as such in their doc comments.
-/

namespace JiraFork

/-- Python strings are modelled as lists of characters. -/
abbrev Str := List Char

/-- Shorthand turning a Lean string literal into the `Str` model. -/
def toL (s : String) : Str := s.toList

/-- Characters stripped by Python str.strip with no argument (ASCII
whitespace: space, tab, newline, carriage return, vertical tab, form feed;
non-ASCII Unicode whitespace is outside the model). -/
def pyIsSpace (c : Char) : Bool :=
  c == ' ' || c == '\t' || c == '\n' || c == '\r' || c == '\x0b' || c == '\x0c'

/-- Python str.strip(): remove leading and trailing whitespace. -/
def pyStrip (l : Str) : Str :=
  ((l.dropWhile pyIsSpace).reverse.dropWhile pyIsSpace).reverse

/-- Python str.lower() for the ASCII range (the repository only lowercases
ASCII schema names). -/
def pyLower (l : Str) : Str := l.map Char.toLower

/-- Worker for `pySplitOn`: scan the text left to right, breaking at each
non-overlapping occurrence of the (nonempty) separator `s :: ss`, exactly
as Python str.split(sep) does.  `acc` holds the current piece reversed.
The structural fuel counter starts at the text length; every step consumes
at least one character, so the zero-fuel escape arm (which closes the
current piece with the remaining text) is never reached. -/
def pySplitGo (s : Char) (ss : List Char) : Nat → List Char → List Char → List (List Char)
  | _, acc, [] => [acc.reverse]
  | 0, acc, c :: rest => [acc.reverse ++ c :: rest]
  | fuel + 1, acc, c :: rest =>
    if (s :: ss).isPrefixOf (c :: rest) then
      acc.reverse :: pySplitGo s ss fuel [] (rest.drop ss.length)
    else
      pySplitGo s ss fuel (c :: acc) rest

/-- Python str.split(sep) for a nonempty separator.  (Python raises on an
empty separator; that case never occurs in the repository, and is mapped
to the identity split here.) -/
def pySplitOn (l : Str) (sep : Str) : List Str :=
  match sep with
  | [] => [l]
  | s :: ss => pySplitGo s ss l.length [] l

/-- Digit-run parser for Python int(): after the first digit, underscores
are allowed as separators between digits (PEP 515); `acc` is the value of
the digits consumed so far. -/
def pyDigitsGo (acc : Nat) : List Char → Option Nat
  | [] => some acc
  | '_' :: c :: rest =>
    if c.isDigit then pyDigitsGo (acc * 10 + (c.toNat - 48)) rest else none
  | c :: rest =>
    if c.isDigit then pyDigitsGo (acc * 10 + (c.toNat - 48)) rest else none

/-- Nonempty digit run with optional underscore separators, no leading or
trailing underscore (ASCII digits; Unicode digits are outside the model). -/
def pyDigits : List Char → Option Nat
  | [] => none
  | '_' :: _ => none
  | c :: rest => if c.isDigit then pyDigitsGo (c.toNat - 48) rest else none

/-- Python int(str): strip whitespace, optional sign, digit run; `none` is
a raised ValueError. -/
def pyInt (l : Str) : Option Int :=
  match pyStrip l with
  | '+' :: rest => (pyDigits rest).map Int.ofNat
  | '-' :: rest => (pyDigits rest).map (fun n => -(n : Int))
  | rest => (pyDigits rest).map Int.ofNat

/-! ## Content normalizer (sync/content_handler.py) -/

/-- MAX_SUMMARY_LENGTH in content_handler.py. -/
def MAX_SUMMARY_LENGTH : Nat := 255

/-- MAX_DESCRIPTION_LENGTH in content_handler.py. -/
def MAX_DESCRIPTION_LENGTH : Nat := 32767

/-- MAX_COMMENT_LENGTH in content_handler.py. -/
def MAX_COMMENT_LENGTH : Nat := 32767

/-- truncate_summary from content_handler.py. -/
def truncate_summary (summary : Str) : Str :=
  if summary = [] then toL "No summary provided"
  else if summary.length ≤ MAX_SUMMARY_LENGTH then summary
  else summary.take (MAX_SUMMARY_LENGTH - 3) ++ toL "..."

/-- Inline ADF node, as produced or consumed by content_handler.py: a text
run (optionally carrying a strong mark, as in merge_descriptions), a hard
break, or a foreign inline node kind (used to represent already-structured
input that is not made of text runs). -/
inductive Inline where
  | text (s : Str)
  | strongText (s : Str)
  | hardBreak
  | otherInline (kind : Str)
deriving DecidableEq

/-- Block-level ADF node: a paragraph, or a foreign block kind (such as a
bulletList) that can occur in already-structured input. -/
inductive Block where
  | paragraph (content : List Inline)
  | otherBlock (kind : Str)
deriving DecidableEq

/-- A dict bearing the ADF envelope marker type: doc. -/
structure AdfDoc where
  version : Nat
  content : List Block
deriving DecidableEq

/-- True for the inline node kinds the specification grammar allows inside
a paragraph: text runs and hard breaks. -/
def Inline.isTextual : Inline → Bool
  | .text _ => true
  | .strongText _ => true
  | .hardBreak => true
  | .otherInline _ => false

/-- Well-formed structured document in the sense of the specification: a
doc whose content is a sequence of paragraphs made of text runs and hard
breaks. -/
def wellFormedDoc (d : AdfDoc) : Bool :=
  d.content.all fun b =>
    match b with
    | .paragraph c => c.all Inline.isTextual
    | .otherBlock _ => false

/-- The per-paragraph line assembly loop of create_adf_document: text runs
joined by hardBreak nodes, with no break after the last line. -/
def linesToInlines : List Str → List Inline
  | [] => []
  | [l] => [Inline.text l]
  | l :: rest => Inline.text l :: Inline.hardBreak :: linesToInlines rest

/-- The paragraph built by create_adf_document for one nonempty segment:
if it contains single newlines the lines are joined with hard breaks,
otherwise it is a single text run. -/
def paragraphOfSegment (para : Str) : Block :=
  let lines := pySplitOn para (toL "\n")
  if lines.length > 1 then Block.paragraph (linesToInlines lines)
  else Block.paragraph [Inline.text para]

/-- create_adf_document from content_handler.py: split on blank lines,
drop whitespace-only segments, and wrap the rest into paragraphs. -/
def create_adf_document (text : Str) : AdfDoc :=
  let paragraphs := pySplitOn text (toL "\n\n")
  let paragraphs := if paragraphs = [] then [[]] else paragraphs
  let content := paragraphs.filterMap fun para =>
    if pyStrip para = [] then none
    else some (paragraphOfSegment para)
  ⟨1, content⟩

/-- Input domain of format_description_for_cloud: absent (None), a plain
string, or a dict bearing the doc envelope marker.  (A dict without the
marker would be stringified by the code; no claim concerns that case and
it is outside the modelled domain.) -/
inductive DescrInput where
  | empty
  | str (s : Str)
  | structured (d : AdfDoc)
deriving DecidableEq

/-- The truncation notice appended by the content handler. -/
def truncNotice : Str := toL "\n\n[Content truncated due to size limits]"

/-- format_description_for_cloud from content_handler.py. -/
def format_description_for_cloud : DescrInput → AdfDoc
  | .empty => create_adf_document (toL "No description provided.")
  | .str s =>
    if s = [] then create_adf_document (toL "No description provided.")
    else if s.length > MAX_DESCRIPTION_LENGTH then
      create_adf_document (s.take (MAX_DESCRIPTION_LENGTH - 100) ++ truncNotice)
    else create_adf_document s
  | .structured d => d

/-- format_comment_for_cloud from content_handler.py. -/
def format_comment_for_cloud (comment : Str) : AdfDoc :=
  if comment = [] then create_adf_document (toL "No comment text")
  else if comment.length > MAX_COMMENT_LENGTH then
    create_adf_document (comment.take (MAX_COMMENT_LENGTH - 100) ++ truncNotice)
  else create_adf_document comment

/-- merge_descriptions from content_handler.py: a bold provenance header
paragraph followed by the formatted description content. -/
def merge_descriptions (original_key : Str) (description : DescrInput) : AdfDoc :=
  let header := Block.paragraph [Inline.strongText (toL "Original issue: " ++ original_key)]
  let formatted_desc := format_description_for_cloud description
  ⟨1, header :: formatted_desc.content⟩

/-! ## Python dicts as ordered association lists -/

/-- Python dict assignment d[k] = v: replace the value in place if the key
is present, append otherwise. -/
def dictSet : List (Str × Str) → Str → Str → List (Str × Str)
  | [], k, v => [(k, v)]
  | (k0, v0) :: rest, k, v =>
    if k0 = k then (k0, v) :: rest else (k0, v0) :: dictSet rest k v

/-- Build a dict from a sequence of key-value pairs in order (dict
comprehension semantics: later pairs with the same key overwrite). -/
def dictOfPairs (ps : List (Str × Str)) : List (Str × Str) :=
  ps.foldl (fun d p => dictSet d p.1 p.2) []

/-- Python d.get(k) / d[k] lookup. -/
def dictGet? (d : List (Str × Str)) (k : Str) : Option Str :=
  (d.find? fun p => p.1 == k).map Prod.snd

/-- Python `k in d` membership test. -/
def dictHas (d : List (Str × Str)) (k : Str) : Bool :=
  (d.find? fun p => p.1 == k).isSome

/-- Python substring test `needle in haystack` on strings. -/
def pyInfix (needle haystack : Str) : Bool :=
  haystack.tails.any fun t => needle.isPrefixOf t

/-! ## Type / status / link mapper
(sync/link_mapper.py and SyncEngine in sync/__init__.py) -/

/-- A destination named entity with a stable identifier, as returned by
the destination metadata endpoints (issue types, statuses). -/
structure DestEntity where
  name : Str
  id : Str
deriving DecidableEq

/-- STANDARD_LINK_TYPES from link_mapper.py, in source order. -/
def STANDARD_LINK_TYPES : List (Str × List Str) :=
  [ (toL "relates to", [toL "related to", toL "relates", toL "related"])
  , (toL "blocks", [toL "blocking", toL "blocks", toL "blocked"])
  , (toL "is blocked by", [toL "blocked by", toL "is blocked", toL "depends on"])
  , (toL "causes", [toL "causes", toL "caused", toL "cause"])
  , (toL "is caused by", [toL "caused by", toL "effect of", toL "result of"])
  , (toL "clones", [toL "clone", toL "cloned from", toL "duplicate"])
  , (toL "is cloned by", [toL "cloned by", toL "cloned to", toL "duplicated by"])
  , (toL "duplicates", [toL "duplicate of", toL "same as"])
  , (toL "is duplicated by", [toL "duplicated by", toL "copied from"])
  , (toL "parent", [toL "parent of", toL "parent task"])
  , (toL "child", [toL "child of", toL "subtask of"])
  , (toL "depends on", [toL "dependency", toL "dependent on"])
  , (toL "is required for", [toL "required for", toL "required by"])
  , (toL "follows", [toL "follows after", toL "successor of"])
  , (toL "precedes", [toL "precedes", toL "predecessor of"]) ]

/-- The synonym scan of create_link_type_mapping: walk the standard-type
table in order; when the lowercased source name equals the primary name or
one of its alternatives, answer the primary name if the destination has
it, else the first alternative the destination has; when the matched group
yields nothing the remaining groups are still consulted (the loop only
breaks once a mapping is recorded). -/
def linkSynonymScan (dest : List (Str × Str)) (lower : Str) :
    List (Str × List Str) → Option Str
  | [] => none
  | (std, alts) :: rest =>
    if lower = std ∨ lower ∈ alts then
      if dictHas dest std then some std
      else
        match alts.find? (fun a => dictHas dest a) with
        | some a => some a
        | none => linkSynonymScan dest lower rest
    else linkSynonymScan dest lower rest

/-- The per-source-name decision of create_link_type_mapping
(link_mapper.py lines 167-206): direct case-insensitive match, then the
synonym table, then the designated default relation, then the first
destination entry; `none` only when the destination has no link types. -/
def linkTypeFor (dest_types_lower : List (Str × Str)) (source_type : Str) : Option Str :=
  let lower := pyLower source_type
  if dictHas dest_types_lower lower then some source_type
  else
    match linkSynonymScan dest_types_lower lower STANDARD_LINK_TYPES with
    | some v => some v
    | none =>
      if dictHas dest_types_lower (toL "relates to") then some (toL "relates to")
      else
        match dest_types_lower with
        | p :: _ => some p.1
        | [] => none

/-- create_link_type_mapping from link_mapper.py: build the source-name to
destination-name dict, one entry per source type that obtains a mapping. -/
def create_link_type_mapping (source_types : List Str) (dest_types : List (Str × Str)) :
    List (Str × Str) :=
  let dest_types_lower := dictOfPairs (dest_types.map fun p => (pyLower p.1, p.2))
  source_types.foldl
    (fun m s =>
      match linkTypeFor dest_types_lower s with
      | some v => dictSet m s v
      | none => m)
    []

/-- common_types in SyncEngine._create_issue_type_mapping. -/
def common_types : List Str :=
  [toL "epic", toL "story", toL "task", toL "sub-task", toL "bug"]

/-- The per-source-name decision of SyncEngine._create_issue_type_mapping:
direct lowercased name match, then the first common type that is a
substring of the source name and exists in the destination, then the
destination Task type, then the first destination type; `none` only when
the destination list is empty. -/
def issueTypeFor (dest_type_map : List (Str × Str)) (dest_types : List DestEntity)
    (source_type : Str) : Option Str :=
  let lower := pyLower source_type
  match dictGet? dest_type_map lower with
  | some v => some v
  | none =>
    match common_types.find? (fun ct => pyInfix ct lower && dictHas dest_type_map ct) with
    | some ct => dictGet? dest_type_map ct
    | none =>
      if dictHas dest_type_map (toL "task") then dictGet? dest_type_map (toL "task")
      else
        match dest_types with
        | t :: _ => some t.id
        | [] => none

/-- SyncEngine._create_issue_type_mapping from sync/__init__.py. -/
def create_issue_type_mapping (source_types : List Str) (dest_types : List DestEntity) :
    List (Str × Str) :=
  let dest_type_map := dictOfPairs (dest_types.map fun t => (pyLower t.name, t.id))
  source_types.foldl
    (fun m s =>
      match issueTypeFor dest_type_map dest_types s with
      | some v => dictSet m s v
      | none => m)
    []

/-- status_categories in SyncEngine._create_status_mapping, in source
order. -/
def status_categories : List (Str × List Str) :=
  [ (toL "to do",
     [toL "backlog", toL "open", toL "to do", toL "todo", toL "new",
      toL "requirements", toL "planning"])
  , (toL "in progress",
     [toL "in progress", toL "development", toL "coding", toL "review",
      toL "testing", toL "qa", toL "verification"])
  , (toL "done",
     [toL "done", toL "closed", toL "resolved", toL "complete",
      toL "finished", toL "released", toL "production"]) ]

/-- The per-source-name decision of SyncEngine._create_status_mapping:
direct lowercased name match, then the first category one of whose
keywords is a substring of the source name and whose category name exists
in the destination, then the first destination status; `none` only when
the destination list is empty. -/
def statusFor (dest_status_map : List (Str × Str)) (dest_statuses : List DestEntity)
    (source_status : Str) : Option Str :=
  let lower := pyLower source_status
  match dictGet? dest_status_map lower with
  | some v => some v
  | none =>
    match status_categories.find?
        (fun c => (c.2.any fun kw => pyInfix kw lower) && dictHas dest_status_map c.1) with
    | some c => dictGet? dest_status_map c.1
    | none =>
      match dest_statuses with
      | s :: _ => some s.id
      | [] => none

/-- SyncEngine._create_status_mapping from sync/__init__.py. -/
def create_status_mapping (source_statuses : List Str) (dest_statuses : List DestEntity) :
    List (Str × Str) :=
  let dest_status_map := dictOfPairs (dest_statuses.map fun s => (pyLower s.name, s.id))
  source_statuses.foldl
    (fun m s =>
      match statusFor dest_status_map dest_statuses s with
      | some v => dictSet m s v
      | none => m)
    []

/-! ## Gap detector (SyncEngine._detect_issue_gaps) -/

/-- IssueGap dataclass from sync/__init__.py. -/
structure IssueGap where
  start_number : Int
  end_number : Int
  reason : Str
deriving DecidableEq

/-- The reason recorded by the gap detector. -/
def gapReason : Str := toL "deleted_or_missing"

/-- Number extraction of _detect_issue_gaps: int(key.split('-')[1]) — the
integer parsed from the second dash-separated segment of the key; `none`
when the segment is absent (IndexError) or not a valid integer
(ValueError), both of which the code catches and skips. -/
def parseIssueNumber (key : Str) : Option Int :=
  match (pySplitOn key (toL "-")).get? 1 with
  | none => none
  | some seg => pyInt seg

/-- The adjacent-pair scan of _detect_issue_gaps over the sorted number
list: one gap (a+1, b-1) for each adjacent pair (a, b) with b - a > 1. -/
def gapsOfSorted : List Int → List IssueGap
  | a :: b :: rest =>
    (if b - a > 1 then [⟨a + 1, b - 1, gapReason⟩] else []) ++ gapsOfSorted (b :: rest)
  | _ => []

/-- The Python list.sort() on the parsed numbers: ascending order (for
integers the sorted permutation is unique, so insertion sort is
extensionally the same function). -/
def sortInts (l : List Int) : List Int :=
  l.insertionSort fun a b => a ≤ b

/-- SyncEngine._detect_issue_gaps from sync/__init__.py, applied to the
issue key list fetched from the source (the fetch itself is part of the
engine environment below). -/
def detect_issue_gaps (issue_keys : List Str) : List IssueGap :=
  let issue_numbers := issue_keys.filterMap parseIssueNumber
  if issue_numbers = [] then []
  else gapsOfSorted (sortInts issue_numbers)

/-- Modelled from the spec, for comparison only (claim C4): parse the
trailing integer of each key, i.e. the integer suffix after the last
dash, skipping keys whose suffix is not a valid integer. -/
def claimTrailingNumber (key : Str) : Option Int :=
  match (pySplitOn key (toL "-")).getLast? with
  | none => none
  | some seg => pyInt seg

/-- Modelled from the spec, for comparison only (claim C4): the gap
detector as the claim words it, with trailing-integer parsing. -/
def claimDetectGaps (issue_keys : List Str) : List IssueGap :=
  let issue_numbers := issue_keys.filterMap claimTrailingNumber
  if issue_numbers = [] then []
  else gapsOfSorted (sortInts issue_numbers)

/-- Declarative form of the adjacent-pair scan used to state claim C4:
zip the sorted list with its tail and keep one gap per wide pair. -/
def adjacentGaps (l : List Int) : List IssueGap :=
  (l.zip l.tail).filterMap fun p =>
    if p.2 - p.1 > 1 then some ⟨p.1 + 1, p.2 - 1, gapReason⟩ else none

/-! ## Data model of the engine and its durable store -/

/-- A custom field record, with the schema.custom type string. -/
structure CustomField where
  id : Str
  name : Str
  customType : Option Str
deriving DecidableEq

/-- problematic_types in SyncEngine._check_unsupported_fields. -/
def problematic_types : List Str :=
  [ toL "com.atlassian.jira.plugin.system.customfieldtypes:cascadingselect"
  , toL "com.pyxis.greenhopper.jira:gh-epic-link"
  , toL "com.atlassian.jira.plugin.system.customfieldtypes:multicheckboxes"
  , toL "com.atlassian.jira.plugin.system.customfieldtypes:multigrouppicker"
  , toL "com.atlassian.jira.plugin.system.customfieldtypes:multiselect"
  , toL "com.atlassian.jira.plugin.system.customfieldtypes:multiuserpicker"
  , toL "com.atlassian.jira.plugin.system.customfieldtypes:project"
  , toL "com.atlassian.jira.plugin.system.customfieldtypes:radiobuttons"
  , toL "com.atlassian.jira.plugin.system.customfieldtypes:select"
  , toL "com.atlassian.jira.plugin.system.customfieldtypes:textarea"
  , toL "com.atlassian.jira.plugin.system.customfieldtypes:textfield"
  , toL "com.atlassian.jira.plugin.system.customfieldtypes:url"
  , toL "com.atlassian.jira.plugin.system.customfieldtypes:userpicker"
  , toL "com.atlassian.jira.plugin.system.customfieldtypes:version" ]

/-- SyncEngine._check_unsupported_fields: keep the custom fields whose
schema.custom type is in the problematic list (the code re-wraps each hit
into an id/name/type/reason record; the model keeps the field record). -/
def check_unsupported_fields (custom_fields : List CustomField) : List CustomField :=
  custom_fields.filter fun f =>
    match f.customType with
    | some t => problematic_types.contains t
    | none => false

/-- A source attachment record (id and filename are the consumed parts). -/
structure Attachment where
  id : Str
  filename : Str
deriving DecidableEq

/-- A source comment record; each field may be absent (the code reads them
with .get defaults). -/
structure CommentRec where
  authorDisplayName : Option Str
  created : Option Str
  body : Option Str
deriving DecidableEq

/-- A source issue as consumed by the engine: the key plus the fields the
per-issue processing reads.  Option marks a field that may be absent from
the fields dict. -/
structure Issue where
  key : Str
  summary : Option Str
  issuetypeName : Option Str
  description : Option DescrInput
  attachments : Option (List Attachment)
  comments : Option (List CommentRec)
deriving DecidableEq

/-- A pairwise issue link fetched from the source. -/
structure LinkRec where
  source_issue : Str
  target_issue : Str
  link_type : Str
deriving DecidableEq

/-- An epic (hierarchy) link fetched from the source. -/
structure EpicLink where
  epic_key : Str
  issue_key : Str
deriving DecidableEq

/-- The project analysis assembled by SyncEngine._analyze_source_project
(the fields the rest of the engine consumes). -/
structure Analysis where
  project_key : Str
  total_issues : Nat
  issue_types : List Str
  gaps : List IssueGap
  custom_fields : List CustomField
  unsupported_fields : List CustomField
  total_attachments : Nat
  attachment_size : Nat
  total_comments : Nat
deriving DecidableEq

/-- The minimal creation payload built by _process_single_issue (fields
dict: project, summary, issuetype, optional description). -/
structure IssuePayload where
  project : Str
  summary : Str
  issuetype_id : Str
  description : Option AdfDoc
deriving DecidableEq

/-- The engine attributes set by _setup_destination_project
(self.issue_type_mapping, self.status_mapping, self.dest_link_types). -/
structure SchemaMappings where
  issue_type_mapping : List (Str × Str)
  status_mapping : List (Str × Str)
  dest_link_types : List (Str × Str)
deriving DecidableEq

/-- A row of the sync_sessions table (start/end timestamps and the
metadata blob are outside the model). -/
structure SessionRec where
  source_project : Str
  dest_project : Str
  sync_type : Str
  status : Str
  error_message : Option Str
deriving DecidableEq

/-- A row of the checkpoints table; the data blob holds
last_processed_issue.  Rows are appended in timestamp order. -/
structure CheckpointRec where
  sync_id : Str
  phase : Str
  progress : Nat
  total : Nat
  last_processed_issue : Option Str
deriving DecidableEq

/-- A row of the issue_mappings table; primary key (sync_id, source_key). -/
structure MappingRow where
  sync_id : Str
  source_key : Str
  dest_key : Str
deriving DecidableEq

/-- The durable store plus the observable trace of destination mutations:
the three StateManager tables, and the issues, links and epic links the
destination API has been asked to create. -/
structure World where
  sessions : List (Str × SessionRec)
  checkpoints : List CheckpointRec
  mappings : List MappingRow
  createdIssues : List (Str × IssuePayload)
  createdLinks : List (Str × Str × Str)
  createdEpicLinks : List (Str × Str)
deriving DecidableEq

/-! ## StateManager operations (utils/__init__.py) -/

/-- StateManager.create_sync_session: INSERT a session row with the
default status running. -/
def create_sync_session (w : World) (sid source_project dest_project sync_type : Str) :
    World :=
  { w with sessions :=
      w.sessions ++ [(sid, ⟨source_project, dest_project, sync_type, toL "running", none⟩)] }

/-- StateManager.complete_sync_session: UPDATE the session row to status
completed. -/
def complete_sync_session (w : World) (sid : Str) : World :=
  { w with sessions :=
      w.sessions.map fun p =>
        if p.1 = sid then (p.1, { p.2 with status := toL "completed" }) else p }

/-- StateManager.fail_sync_session: UPDATE the session row to status
failed with the captured error message. -/
def fail_sync_session (w : World) (sid : Str) (error_message : Str) : World :=
  { w with sessions :=
      w.sessions.map fun p =>
        if p.1 = sid then
          (p.1, { p.2 with status := toL "failed", error_message := some error_message })
        else p }

/-- StateManager.get_sync_session: SELECT the session row by id. -/
def get_sync_session (w : World) (sid : Str) : Option SessionRec :=
  (w.sessions.find? fun p => p.1 == sid).map Prod.snd

/-- StateManager.create_checkpoint: append a checkpoint row. -/
def create_checkpoint (w : World) (sid phase : Str) (progress total : Nat)
    (last_processed_issue : Option Str) : World :=
  { w with checkpoints :=
      w.checkpoints ++ [⟨sid, phase, progress, total, last_processed_issue⟩] }

/-- StateManager.get_last_checkpoint: the checkpoint for the session with
the latest timestamp; rows are appended in timestamp order, so it is the
last matching row. -/
def get_last_checkpoint (w : World) (sid : Str) : Option CheckpointRec :=
  (w.checkpoints.filter fun c => c.sync_id == sid).getLast?

/-- Upsert into the issue_mappings table on the primary key
(sync_id, source_key): latest wins. -/
def upsertMapping : List MappingRow → Str → Str → Str → List MappingRow
  | [], sid, k, d => [⟨sid, k, d⟩]
  | r :: rest, sid, k, d =>
    if r.sync_id = sid ∧ r.source_key = k then ⟨sid, k, d⟩ :: rest
    else r :: upsertMapping rest sid k d

/-- Modelled from the spec: StateManager.add_issue_mapping is called by
_process_single_issue (sync/__init__.py line 977) but is not implemented
in utils/__init__.py.  Spec section 6 lists the store operation append an
issue-key mapping entry, the table declares PRIMARY KEY
(sync_id, source_key), and design-notes section 9 prescribes
mapping-table upsert (latest wins). -/
def add_issue_mapping (w : World) (sid source_key dest_key : Str) : World :=
  { w with mappings := upsertMapping w.mappings sid source_key dest_key }

/-- Modelled from the spec: StateManager.save_issue_mapping is called by
_process_issues_sequentially (sync/__init__.py line 653) but is not
implemented in utils/__init__.py.  It stores the complete in-memory
mapping dict: an entrywise upsert on the primary key. -/
def save_issue_mapping (w : World) (sid : Str) (m : List (Str × Str)) : World :=
  { w with mappings := m.foldl (fun t p => upsertMapping t sid p.1 p.2) w.mappings }

/-- Modelled from the spec: StateManager.get_issue_mapping is called by
_validate_synchronization and _process_incremental_changes but is not
implemented in utils/__init__.py: fetch the stored mapping entries of a
session. -/
def get_issue_mapping (w : World) (sid : Str) : List (Str × Str) :=
  (w.mappings.filter fun r => r.sync_id == sid).map fun r => (r.source_key, r.dest_key)

/-- Modelled from the spec: StateManager.get_project_analysis is called by
_resume_issue_processing but is not implemented in utils/__init__.py, and
save_project_analysis is a pass stub, so nothing is ever stored; the
fetched value is not consumed by the processing loop, and is modelled as
an empty record. -/
def get_project_analysis (_w : World) (_sid : Str) : Analysis :=
  ⟨[], 0, [], [], [], [], 0, 0, 0⟩

/-! ## The engine environment: remote API oracles and configuration.
Each Except-valued field is one remote call; error is a raised APIError.
The response of create_issue is modelled as a function of the source
issue being transferred (the environment resolves the nondeterminism of
the remote side); the payload actually sent is recorded in the
createdIssues trace. -/

structure Env where
  batch_size : Nat
  include_attachments : Bool
  include_comments : Bool
  source_get_project : Except Str Str
  get_issue_statistics : Except Str (Nat × List (Str × Nat))
  get_all_issue_keys : Except Str (List Str)
  get_custom_fields : Except Str (List CustomField)
  get_attachment_statistics : Except Str (Nat × Nat)
  get_comment_statistics : Except Str Nat
  dest_get_project : Except Str (Option Str)
  get_issue_types_for_project : Except Str (List DestEntity)
  get_statuses_for_project : Except Str (List DestEntity)
  get_issue_link_types : Except Str (List (Str × Str))
  get_issues_in_order : Except Str (List Issue)
  create_issue : Issue → Except Str Str
  download_attachment : Str → Except Str Unit
  add_attachment : Str → Str → Except Str Unit
  add_comment : Str → AdfDoc → Except Str Unit
  get_all_issue_links : List Str → Except Str (List LinkRec)
  get_all_epic_links : List Str → Except Str (List EpicLink)
  create_issue_link : Str → Str → Str → Except Str Unit
  create_epic_link : Str → Str → Except Str Unit
  source_get_issue_count : Except Str Nat
  dest_get_issue_count : Except Str Nat

/-! ## Engine phases (SyncEngine in sync/__init__.py) -/

/-- Body of the try block of _analyze_source_project, in call order; the
gap-detection fetch catches its own APIError and yields no gaps. -/
def analyzeCore (env : Env) : Except Str Analysis := do
  let project_key ← env.source_get_project
  let issue_stats ← env.get_issue_statistics
  let gaps :=
    match env.get_all_issue_keys with
    | .error _ => []
    | .ok keys => detect_issue_gaps keys
  let custom_fields ← env.get_custom_fields
  let unsupported := check_unsupported_fields custom_fields
  let attachment_stats ← env.get_attachment_statistics
  let comment_total ← env.get_comment_statistics
  pure ⟨project_key, issue_stats.1, issue_stats.2.map Prod.fst, gaps, custom_fields,
        unsupported, attachment_stats.1, attachment_stats.2, comment_total⟩

/-- SyncEngine._analyze_source_project: an APIError anywhere in the body
is re-raised as a SyncError with the analysis prefix. -/
def analyze_source_project (env : Env) : Except Str Analysis :=
  match analyzeCore env with
  | .ok a => .ok a
  | .error e => .error (toL "Failed to analyze source project: " ++ e)

/-- get_available_link_types from link_mapper.py: lowercased name-to-id
dict of the destination link types; any failure is caught and yields the
empty dict. -/
def get_available_link_types (env : Env) : List (Str × Str) :=
  match env.get_issue_link_types with
  | .error _ => []
  | .ok lts => dictOfPairs (lts.map fun p => (pyLower p.1, p.2))

/-- SyncEngine._setup_destination_project: fetch destination metadata and
build the three schema mappings.  A missing destination project raises a
SyncError with its own message; an APIError is wrapped with the setup
prefix.  The analysis dict built by _analyze_source_project has no
statuses key, so analysis.get(statuses, []) always yields the empty
source status list here. -/
def setup_destination_project (env : Env) (dest_project : Str) (analysis : Analysis) :
    Except Str SchemaMappings :=
  match env.dest_get_project with
  | .error e => .error (toL "Failed to set up destination project: " ++ e)
  | .ok none => .error (toL "Destination project " ++ dest_project ++ toL " not found")
  | .ok (some _) =>
    match env.get_issue_types_for_project with
    | .error e => .error (toL "Failed to set up destination project: " ++ e)
    | .ok dest_issue_types =>
      let issue_type_mapping := create_issue_type_mapping analysis.issue_types dest_issue_types
      match env.get_statuses_for_project with
      | .error e => .error (toL "Failed to set up destination project: " ++ e)
      | .ok dest_statuses =>
        let status_mapping := create_status_mapping [] dest_statuses
        let dest_link_types := get_available_link_types env
        .ok ⟨issue_type_mapping, status_mapping, dest_link_types⟩

/-- sanitize_issue_data from content_handler.py, on the payload built by
_process_single_issue: the summary is re-truncated; the description, when
present, is already an ADF dict and is left unchanged. -/
def sanitize_issue_data (p : IssuePayload) : IssuePayload :=
  { p with summary := truncate_summary p.summary }

/-- The issue_data payload assembled by _process_single_issue: the mapped
issue type id (with the Task-lookup default argument and the hard 10036
fallback applied to a falsy id), the truncated summary (with the
Issue-from default), and the provenance-merged description when the field
is present. -/
def buildIssuePayload (issue_type_mapping : List (Str × Str)) (default_task : Option Str)
    (dest_project : Str) (iss : Issue) : IssuePayload :=
  let looked := dictGet? issue_type_mapping (iss.issuetypeName.getD (toL "Task"))
  let issue_type_id :=
    match (match looked with | some v => some v | none => default_task) with
    | some v => if v = [] then toL "10036" else v
    | none => toL "10036"
  let summary := truncate_summary (iss.summary.getD (toL "Issue from " ++ iss.key))
  let description := iss.description.map fun d => merge_descriptions iss.key d
  sanitize_issue_data ⟨dest_project, summary, issue_type_id, description⟩

/-- SyncEngine._transfer_attachments: per-attachment download then upload,
counting successes; any per-attachment failure is logged and skipped. -/
def transfer_attachments (env : Env) (attachments : List Attachment) (dest_key : Str) :
    Nat :=
  attachments.foldl
    (fun n a =>
      match env.download_attachment a.id with
      | .error _ => n
      | .ok _ =>
        match env.add_attachment dest_key a.filename with
        | .error _ => n
        | .ok _ => n + 1)
    0

/-- The provenance-headed comment text assembled by _transfer_comments. -/
def commentText (c : CommentRec) : Str :=
  toL "[Comment by " ++ c.authorDisplayName.getD (toL "Unknown") ++ toL " on "
    ++ c.created.getD (toL "Unknown date") ++ toL "]\n\n" ++ c.body.getD []

/-- SyncEngine._transfer_comments: per-comment formatting and creation,
counting successes; any per-comment failure is logged and skipped. -/
def transfer_comments (env : Env) (comments : List CommentRec) (dest_key : Str) : Nat :=
  comments.foldl
    (fun n c =>
      match env.add_comment dest_key (format_comment_for_cloud (commentText c)) with
      | .error _ => n
      | .ok _ => n + 1)
    0

/-- Result dict of _process_single_issue. -/
structure SingleRes where
  source_key : Str
  dest_key : Str
  attachments_transferred : Nat
  comments_synchronized : Nat
deriving DecidableEq

/-- The AttributeError raised when _process_single_issue reads the
issue_type_mapping attribute on an engine that never ran the setup phase
(exception text abbreviated; only its identity matters). -/
def attrErrIssueTypeMapping : Str :=
  toL "AttributeError: SyncEngine object has no attribute issue_type_mapping"

/-- The AttributeError raised when _synchronize_relationships reads the
dest_link_types attribute on an engine that never ran the setup phase. -/
def attrErrDestLinkTypes : Str :=
  toL "AttributeError: SyncEngine object has no attribute dest_link_types"

/-- The conditional attachment transfer of _process_single_issue: only
when the include_attachments option is on and the attachment field is
present. -/
def attCount (env : Env) (iss : Issue) (dest_key : Str) : Nat :=
  if env.include_attachments then
    match iss.attachments with
    | some as0 => transfer_attachments env as0 dest_key
    | none => 0
  else 0

/-- The conditional comment transfer of _process_single_issue: only when
the include_comments option is on and the comment field is present. -/
def comCount (env : Env) (iss : Issue) (dest_key : Str) : Nat :=
  if env.include_comments then
    match iss.comments with
    | some cs => transfer_comments env cs dest_key
    | none => 0
  else 0

/-- The payload _process_single_issue sends for an issue, given the
fetched destination issue types (the Task-name default argument of the
mapping .get). -/
def payloadFor (maps : SchemaMappings) (dest_types : List DestEntity) (dest_project : Str)
    (iss : Issue) : IssuePayload :=
  buildIssuePayload maps.issue_type_mapping
    ((dest_types.find? fun t => t.name == toL "Task").map DestEntity.id) dest_project iss

/-- SyncEngine._process_single_issue.  maps? carries the engine attributes
set by the setup phase: present on the fork path; absent on the resume
path (main.py constructs a fresh SyncEngine for the resume command and
resume_sync never runs setup), where the attribute access raises before
any API call.  The default argument of the issue-type .get performs a
live get_issue_types_for_project call on every issue; its APIError, and
the APIError of create_issue, are re-raised as SyncError with the
per-issue prefix.  On success the mapping row is upserted and the
attachment and comment counts are gathered. -/
def process_single_issue (env : Env) (maps? : Option SchemaMappings) (sid : Str)
    (dest_project : Str) (w : World) (iss : Issue) : World × Except Str SingleRes :=
  match maps? with
  | none => (w, .error attrErrIssueTypeMapping)
  | some maps =>
    match env.get_issue_types_for_project with
    | .error e => (w, .error (toL "Failed to process issue " ++ iss.key ++ toL ": " ++ e))
    | .ok dest_types =>
      let issue_data := payloadFor maps dest_types dest_project iss
      let w := { w with createdIssues := w.createdIssues ++ [(iss.key, issue_data)] }
      match env.create_issue iss with
      | .error e => (w, .error (toL "Failed to process issue " ++ iss.key ++ toL ": " ++ e))
      | .ok dest_key =>
        let w := add_issue_mapping w sid iss.key dest_key
        (w, .ok ⟨iss.key, dest_key, attCount env iss dest_key, comCount env iss dest_key⟩)

/-- The aggregate result dict of _process_issues_sequentially. -/
structure SeqRes where
  issue_mapping : List (Str × Str)
  issues_processed : Nat
  attachments_transferred : Nat
  comments_synchronized : Nat
deriving DecidableEq

/-- The enumerate loop of _process_issues_sequentially: checkpoint at each
batch boundary (recording the key about to be processed), then process the
issue inside a try whose except logs and continues, so a failed issue
leaves the counters and the mapping dict untouched. -/
def seqLoop (env : Env) (maps? : Option SchemaMappings) (sid dest_project : Str)
    (total : Nat) : List Issue → Nat → World → SeqRes → World × SeqRes
  | [], _, w, acc => (w, acc)
  | iss :: rest, i, w, acc =>
    let w :=
      if i % env.batch_size == 0 then
        create_checkpoint w sid (toL "issue_processing") i total (some iss.key)
      else w
    match process_single_issue env maps? sid dest_project w iss with
    | (w2, .ok r) =>
      seqLoop env maps? sid dest_project total rest (i + 1) w2
        ⟨dictSet acc.issue_mapping iss.key r.dest_key,
         acc.issues_processed + 1,
         acc.attachments_transferred + r.attachments_transferred,
         acc.comments_synchronized + r.comments_synchronized⟩
    | (w2, .error _) => seqLoop env maps? sid dest_project total rest (i + 1) w2 acc

/-- SyncEngine._process_issues_sequentially: fetch the ordered issue list
(an APIError is re-raised as SyncError with the processing prefix),
locate the optional start_from key (first match, else index 0), run the
loop from that index inclusive, and store the complete mapping. -/
def process_issues_sequentially (env : Env) (maps? : Option SchemaMappings)
    (sid _source_project dest_project : Str) (start_from : Option Str) (w : World) :
    World × Except Str SeqRes :=
  match env.get_issues_in_order with
  | .error e => (w, .error (toL "Failed to process issues: " ++ e))
  | .ok issues =>
    let total := issues.length
    let start_index :=
      match start_from with
      | none => 0
      | some k =>
        match issues.findIdx? (fun iss => iss.key == k) with
        | some i => i
        | none => 0
    let (w, acc) := seqLoop env maps? sid dest_project total (issues.drop start_index)
        start_index w ⟨[], 0, 0, 0⟩
    let w := save_issue_mapping w sid acc.issue_mapping
    (w, .ok acc)

/-- create_fallback_link from link_mapper.py: try a relates-to link when
the destination has that type; on failure (or when it is absent) try the
first available destination link type; report whether a link was made. -/
def create_fallback_link (env : Env) (w : World) (source_issue target_issue : Str)
    (available_types : List (Str × Str)) : World × Bool :=
  let tryAny : World → World × Bool := fun w0 =>
    match available_types with
    | [] => (w0, false)
    | (fallback_type, _) :: _ =>
      match env.create_issue_link source_issue target_issue fallback_type with
      | .ok _ =>
        ({ w0 with createdLinks :=
            w0.createdLinks ++ [(source_issue, target_issue, fallback_type)] }, true)
      | .error _ => (w0, false)
  if dictHas available_types (toL "relates to") then
    match env.create_issue_link source_issue target_issue (toL "relates to") with
    | .ok _ =>
      ({ w with createdLinks :=
          w.createdLinks ++ [(source_issue, target_issue, toL "relates to")] }, true)
    | .error _ => tryAny w
  else tryAny w

/-- The pairwise-link loop of _synchronize_relationships: links with an
unmapped endpoint are skipped without counting; a mapped link type is
created directly; an unmapped type goes through create_fallback_link; a
creation failure counts as failed. -/
def linkLoop (env : Env) (issue_mapping ltm dlt : List (Str × Str)) :
    List LinkRec → World → Nat → Nat → World × Nat × Nat
  | [], w, c, f => (w, c, f)
  | l :: rest, w, c, f =>
    match dictGet? issue_mapping l.source_issue, dictGet? issue_mapping l.target_issue with
    | some ms, some mt =>
      match dictGet? ltm l.link_type with
      | some mlt =>
        match env.create_issue_link ms mt mlt with
        | .ok _ =>
          linkLoop env issue_mapping ltm dlt rest
            { w with createdLinks := w.createdLinks ++ [(ms, mt, mlt)] } (c + 1) f
        | .error _ => linkLoop env issue_mapping ltm dlt rest w c (f + 1)
      | none =>
        match create_fallback_link env w ms mt dlt with
        | (w2, true) => linkLoop env issue_mapping ltm dlt rest w2 (c + 1) f
        | (w2, false) => linkLoop env issue_mapping ltm dlt rest w2 c (f + 1)
    | _, _ => linkLoop env issue_mapping ltm dlt rest w c f

/-- The epic-link loop of _synchronize_relationships. -/
def epicLoop (env : Env) (issue_mapping : List (Str × Str)) :
    List EpicLink → World → Nat → Nat → World × Nat × Nat
  | [], w, c, f => (w, c, f)
  | e :: rest, w, c, f =>
    match dictGet? issue_mapping e.epic_key, dictGet? issue_mapping e.issue_key with
    | some me, some mi =>
      match env.create_epic_link me mi with
      | .ok _ =>
        epicLoop env issue_mapping rest
          { w with createdEpicLinks := w.createdEpicLinks ++ [(me, mi)] } (c + 1) f
      | .error _ => epicLoop env issue_mapping rest w c (f + 1)
    | _, _ => epicLoop env issue_mapping rest w c f

/-- The set of link-type names occurring in the fetched links.  Python
iterates a set in arbitrary order; the model enumerates first occurrences
(the built mapping has one independently computed entry per name, so its
lookups do not depend on the enumeration order). -/
def sourceLinkTypes (links : List LinkRec) : List Str :=
  links.foldl (fun acc l => if l.link_type ∈ acc then acc else acc ++ [l.link_type]) []

/-- SyncEngine._synchronize_relationships.  dlt? carries the
dest_link_types engine attribute: absent on the resume path, where the
attribute read raises AttributeError, which the except APIError clause
does not catch, so it escapes as an error.  An APIError from either fetch
is caught and the counts gathered so far are returned. -/
def synchronize_relationships (env : Env) (dlt? : Option (List (Str × Str)))
    (issue_mapping : List (Str × Str)) (w : World) : World × Except Str (Nat × Nat) :=
  match env.get_all_issue_links (issue_mapping.map Prod.fst) with
  | .error _ => (w, .ok (0, 0))
  | .ok links =>
    let source_link_types := sourceLinkTypes links
    match dlt? with
    | none => (w, .error attrErrDestLinkTypes)
    | some dlt =>
      let ltm := create_link_type_mapping source_link_types dlt
      match linkLoop env issue_mapping ltm dlt links w 0 0 with
      | (w, c, f) =>
        match env.get_all_epic_links (issue_mapping.map Prod.fst) with
        | .error _ => (w, .ok (c, f))
        | .ok epics =>
          match epicLoop env issue_mapping epics w c f with
          | (w2, c2, f2) => (w2, .ok (c2, f2))

/-- SyncEngine._validate_synchronization: read-only statistics; an
APIError is caught and reported as an error record; the float coverage
value is outside the model.  Returns the counts it gathers. -/
def validate_synchronization (env : Env) (w : World) (sid : Str) :
    Option (Nat × Nat × Nat) :=
  match env.source_get_issue_count with
  | .error _ => none
  | .ok sc =>
    match env.dest_get_issue_count with
    | .error _ => none
    | .ok dc => some (sc, dc, (get_issue_mapping w sid).length)

/-- SyncResult dataclass (start/end timestamps omitted: nothing in the
claims or the control flow reads them). -/
structure SyncResult where
  success : Bool
  sync_id : Str
  issues_processed : Nat
  attachments_transferred : Nat
  comments_synchronized : Nat
  changes_processed : Nat
  links_created : Nat
  links_failed : Nat
  error_message : Option Str
deriving DecidableEq

/-- The failure result built in the except clauses. -/
def failResult (sid : Str) (e : Str) : SyncResult :=
  ⟨false, sid, 0, 0, 0, 0, 0, 0, some e⟩

/-- SyncEngine.fork_project: create the session, run the phases, complete
the session on success; any escaped error marks the session failed with
the captured message and yields a non-success result.
save_project_analysis and save_user_mapping are pass stubs, and
_synchronize_users catches its APIError internally and only feeds
save_user_mapping, so neither affects the world. -/
def fork_project (env : Env) (w : World) (sid source_project dest_project : Str)
    (start_from : Option Str) : World × SyncResult :=
  let w := create_sync_session w sid source_project dest_project (toL "fork")
  match analyze_source_project env with
  | .error e => (fail_sync_session w sid e, failResult sid e)
  | .ok analysis =>
    match setup_destination_project env dest_project analysis with
    | .error e => (fail_sync_session w sid e, failResult sid e)
    | .ok maps =>
      match process_issues_sequentially env (some maps) sid source_project dest_project
          start_from w with
      | (w, .error e) => (fail_sync_session w sid e, failResult sid e)
      | (w, .ok seq) =>
        match synchronize_relationships env (some maps.dest_link_types)
            seq.issue_mapping w with
        | (w, .error e) => (fail_sync_session w sid e, failResult sid e)
        | (w, .ok (lc, lf)) =>
          let _ := validate_synchronization env w sid
          let result : SyncResult :=
            ⟨true, sid, seq.issues_processed, seq.attachments_transferred,
             seq.comments_synchronized, 0, lc, lf, none⟩
          (complete_sync_session w sid, result)

/-- The first phase error fork_project can encounter, in phase order
(relationship sync and validation catch their APIErrors internally on the
fork path and cannot fail it). -/
def fork_phase_error (env : Env) (dest_project : Str) : Option Str :=
  match analyze_source_project env with
  | .error e => some e
  | .ok analysis =>
    match setup_destination_project env dest_project analysis with
    | .error e => some e
    | .ok _ =>
      match env.get_issues_in_order with
      | .error e => some (toL "Failed to process issues: " ++ e)
      | .ok _ => none

/-- The TypeError text for subscripting None (checkpoint or session row
absent, or a checkpoint without a data blob); abbreviated, only its
identity matters. -/
def typeErrNoneSub : Str := toL "TypeError: NoneType object is not subscriptable"

/-- SyncEngine._resume_issue_processing: reload the session, read the
checkpointed last-processed key, reprocess sequentially from it
(inclusive), then relationship sync and validation, completing the
session on success.  Its except clause returns a failure result without
touching the stored session.  The fresh engine has no schema-mapping
attributes, hence maps? = none and dlt? = none. -/
def resume_issue_processing (env : Env) (w : World) (sid : Str) (cp : CheckpointRec) :
    World × SyncResult :=
  match get_sync_session w sid with
  | none => (w, failResult sid typeErrNoneSub)
  | some st =>
    match cp.last_processed_issue with
    | none => (w, failResult sid typeErrNoneSub)
    | some last_issue =>
      let _ := get_project_analysis w sid
      match process_issues_sequentially env none sid st.source_project st.dest_project
          (some last_issue) w with
      | (w, .error e) => (w, failResult sid e)
      | (w, .ok seq) =>
        match synchronize_relationships env none seq.issue_mapping w with
        | (w, .error e) => (w, failResult sid e)
        | (w, .ok (lc, lf)) =>
          let _ := validate_synchronization env w sid
          let result : SyncResult :=
            ⟨true, sid, seq.issues_processed, seq.attachments_transferred,
             seq.comments_synchronized, 0, lc, lf, none⟩
          (complete_sync_session w sid, result)

/-- SyncEngine.resume_sync: load the session (failing when absent or
already completed), load the latest checkpoint (subscripting None when
there is none), and resume only the issue_processing phase. -/
def resume_sync (env : Env) (w : World) (sid : Str) : World × SyncResult :=
  match get_sync_session w sid with
  | none => (w, failResult sid (toL "Sync session not found: " ++ sid))
  | some st =>
    if st.status = toL "completed" then
      (w, failResult sid (toL "Sync session already completed: " ++ sid))
    else
      match get_last_checkpoint w sid with
      | none => (w, failResult sid typeErrNoneSub)
      | some cp =>
        if cp.phase = toL "issue_processing" then resume_issue_processing env w sid cp
        else (w, failResult sid (toL "Cannot resume from phase: " ++ cp.phase))

/-! ## Auxiliary predicates and demonstration inputs used by the claim
theorems and witnesses -/

/-- The block-level side of `wellFormedDoc`, as a standalone predicate. -/
def goodBlock (b : Block) : Bool :=
  match b with
  | .paragraph c => c.all Inline.isTextual
  | .otherBlock _ => false

/-- Whether the destination accepted the creation of this issue. -/
def createOk (env : Env) (iss : Issue) : Bool :=
  match env.create_issue iss with
  | .ok _ => true
  | .error _ => false

/-- Modelled from the spec, for comparison only (claim C6): the mapping
precedence exactly as the claim words it, applied to the status category:
case-insensitive exact match; otherwise membership (equality) in a fixed
synonym group, redirecting to whichever group member exists in the
destination; otherwise the first destination entity.  The fixed table is
the status_categories table of the code. -/
def claimStatusRule (dest_statuses : List DestEntity) (source : Str) : Option Str :=
  let dm := dictOfPairs (dest_statuses.map fun s => (pyLower s.name, s.id))
  let lower := pyLower source
  match dictGet? dm lower with
  | some v => some v
  | none =>
    match status_categories.find? (fun c => lower = c.1 ∨ lower ∈ c.2) with
    | some c =>
      if dictHas dm c.1 then dictGet? dm c.1
      else
        match c.2.find? (fun kw => dictHas dm kw) with
        | some kw => dictGet? dm kw
        | none =>
          match dest_statuses with
          | s :: _ => some s.id
          | [] => none
    | none =>
      match dest_statuses with
      | s :: _ => some s.id
      | [] => none

/-- First-some cascade: the value of the first rung that applies;
later rungs are not consulted. -/
def orElse2 (a b : Option Str) : Option Str :=
  match a with
  | some v => some v
  | none => b

/-- The precedence cascade the code applies per source link-type name:
(1) case-insensitive direct match (answering the source spelling);
(2) the synonym-table scan; (3) the default relation relates to when the
destination has it; (4) the first destination entry. -/
def linkRungs (dl : List (Str × Str)) (s : Str) : Option Str :=
  orElse2 (if dictHas dl (pyLower s) then some s else none)
    (orElse2 (linkSynonymScan dl (pyLower s) STANDARD_LINK_TYPES)
      (orElse2 (if dictHas dl (toL "relates to") then some (toL "relates to") else none)
        (dl.head?.map Prod.fst)))

/-- The precedence cascade the code applies per source status name:
(1) case-insensitive direct match; (2) the first category one of whose
keywords is a substring of the lowercased source name and whose category
name exists in the destination, answering that category entry; (3) the
first destination status. -/
def statusRungs (dm : List (Str × Str)) (dest_statuses : List DestEntity) (s : Str) :
    Option Str :=
  orElse2 (dictGet? dm (pyLower s))
    (orElse2
      ((status_categories.find?
          (fun c => (c.2.any fun kw => pyInfix kw (pyLower s)) && dictHas dm c.1)).bind
        fun c => dictGet? dm c.1)
      (dest_statuses.head?.map DestEntity.id))

/-- The precedence cascade the code applies per source issue-type name:
(1) case-insensitive direct match; (2) the first common type that is a
substring of the lowercased source name and exists in the destination;
(3) the destination Task type when present; (4) the first destination
type. -/
def issueTypeRungs (dm : List (Str × Str)) (dest_types : List DestEntity) (s : Str) :
    Option Str :=
  orElse2 (dictGet? dm (pyLower s))
    (orElse2
      ((common_types.find? (fun ct => pyInfix ct (pyLower s) && dictHas dm ct)).bind
        fun ct => dictGet? dm ct)
      (orElse2 (if dictHas dm (toL "task") then dictGet? dm (toL "task") else none)
        (dest_types.head?.map DestEntity.id)))

/-- An already-structured input bearing the doc marker whose content is
not a sequence of paragraphs (counterexample input for claim C8). -/
def badStructured : AdfDoc := ⟨1, [Block.otherBlock (toL "bulletList")]⟩

/-- Key list on which the second-dash-segment parse of the code and the
trailing-integer parse of claim C4 disagree. -/
def c4DemoKeys : List Str := [toL "P-1", toL "P-3-x"]

/-- The key list of the worked example in the specification (numbers
1, 2, 4, 5, 8). -/
def c4ExampleKeys : List Str :=
  [toL "PROJ-1", toL "PROJ-2", toL "PROJ-4", toL "PROJ-5", toL "PROJ-8"]

/-- Destination status list for the C6 counterexample: it has Done and
Backlog but not the literal category name to do. -/
def c6DemoDest : List DestEntity :=
  [⟨toL "Done", toL "3"⟩, ⟨toL "Backlog", toL "2"⟩]

/-- A world with empty store tables and an empty mutation trace. -/
def emptyWorld : World := ⟨[], [], [], [], [], []⟩

/-- An environment in which every remote call fails (the baseline the
demonstration environments override). -/
def dummyEnv : Env where
  batch_size := 1
  include_attachments := false
  include_comments := false
  source_get_project := .error (toL "down")
  get_issue_statistics := .error (toL "down")
  get_all_issue_keys := .error (toL "down")
  get_custom_fields := .error (toL "down")
  get_attachment_statistics := .error (toL "down")
  get_comment_statistics := .error (toL "down")
  dest_get_project := .error (toL "down")
  get_issue_types_for_project := .error (toL "down")
  get_statuses_for_project := .error (toL "down")
  get_issue_link_types := .error (toL "down")
  get_issues_in_order := .error (toL "down")
  create_issue := fun _ => .error (toL "down")
  download_attachment := fun _ => .error (toL "down")
  add_attachment := fun _ _ => .error (toL "down")
  add_comment := fun _ _ => .error (toL "down")
  get_all_issue_links := fun _ => .error (toL "down")
  get_all_epic_links := fun _ => .error (toL "down")
  create_issue_link := fun _ _ _ => .error (toL "down")
  create_epic_link := fun _ _ => .error (toL "down")
  source_get_issue_count := .error (toL "down")
  dest_get_issue_count := .error (toL "down")

/-- A minimal source issue with the given key. -/
def mkIssue (k : String) : Issue :=
  ⟨toL k, some (toL "Summary"), some (toL "Task"), none, none, none⟩

/-- The three-issue source project of the end-to-end scenario of claim C1
(P-1 ok, P-2 fails, P-3 ok). -/
def demoIssues : List Issue := [mkIssue "P-1", mkIssue "P-2", mkIssue "P-3"]

/-- Environment of the C1 scenario: every phase succeeds, batch size 1,
and creation fails exactly for P-2. -/
def demoEnvC1 : Env :=
  { dummyEnv with
    source_get_project := .ok (toL "PROJ")
    get_issue_statistics := .ok (3, [(toL "Task", 3)])
    get_all_issue_keys := .ok [toL "P-1", toL "P-2", toL "P-3"]
    get_custom_fields := .ok []
    get_attachment_statistics := .ok (0, 0)
    get_comment_statistics := .ok 0
    dest_get_project := .ok (some (toL "DEST"))
    get_issue_types_for_project := .ok [⟨toL "Task", toL "10001"⟩]
    get_statuses_for_project := .ok [⟨toL "To Do", toL "1"⟩]
    get_issue_link_types := .ok [(toL "Relates To", toL "10003")]
    get_issues_in_order := .ok demoIssues
    create_issue := fun iss =>
      if iss.key == toL "P-2" then .error (toL "transform failed")
      else .ok (toL "D-" ++ iss.key)
    get_all_issue_links := fun _ => .ok []
    get_all_epic_links := fun _ => .ok []
    source_get_issue_count := .ok 3
    dest_get_issue_count := .ok 3 }

/-- World of the C3 failing input: session S1 is running, a checkpoint of
the issue_processing phase records last-processed key P-1, and the
mapping table holds the one row for P-1 written before the crash. -/
def demoWorldC3 : World :=
  ⟨[(toL "S1", ⟨toL "PROJ", toL "DEST", toL "fork", toL "running", none⟩)],
   [⟨toL "S1", toL "issue_processing", 0, 2, some (toL "P-1")⟩],
   [⟨toL "S1", toL "P-1", toL "D-P-1"⟩], [], [], []⟩

/-- Environment of the C3 failing input: the source still serves the
ordered issue list and the destination would accept any creation. -/
def demoEnvC3 : Env :=
  { demoEnvC1 with
    get_issues_in_order := .ok [mkIssue "P-1", mkIssue "P-2"]
    create_issue := fun iss => .ok (toL "D2-" ++ iss.key) }

/-- The link of the C9 scenario: a source link type absent from the
destination. -/
def c9Link : LinkRec := ⟨toL "S-1", toL "S-2", toL "custom-blocks"⟩

/-- The completed issue mapping of the C9 scenario. -/
def c9Imap : List (Str × Str) := [(toL "S-1", toL "D-1"), (toL "S-2", toL "D-2")]

/-- The destination link types of the C9 scenario (the engine stores them
already lowercased): relates to is offered. -/
def c9Dlt : List (Str × Str) := [(toL "relates to", toL "10003")]

/-- Environment of the C9 scenario: the one link is served and the
destination accepts link creation. -/
def demoEnvC9 : Env :=
  { dummyEnv with
    get_all_issue_links := fun _ => .ok [c9Link]
    get_all_epic_links := fun _ => .ok []
    create_issue_link := fun _ _ _ => .ok () }

/-! ## Theorems.
Shared lemmas come first inside each topic; each claim is settled by one
theorem named after it (with a witness or counterexample where needed). -/

theorem truncate_summary_length_le (s : Str) : (truncate_summary s).length ≤ 255 := by
  unfold truncate_summary
  split_ifs with h1 h2
  · decide
  · exact h2
  · have h3 : (toL "...").length = 3 := by decide
    have h4 : (s.take (MAX_SUMMARY_LENGTH - 3)).length ≤ 252 :=
      List.length_take_le (MAX_SUMMARY_LENGTH - 3) s
    simp only [List.length_append, h3]
    omega

theorem truncate_summary_ne_nil (s : Str) : truncate_summary s ≠ [] := by
  unfold truncate_summary
  split_ifs with h1 h2
  · decide
  · exact h1
  · intro hcon
    rw [List.append_eq_nil] at hcon
    exact absurd hcon.2 (by decide)

theorem truncate_summary_of_short (t : Str) (ht : t ≠ []) (hl : t.length ≤ 255) :
    truncate_summary t = t := by
  unfold truncate_summary
  rw [if_neg ht, if_pos]
  exact hl

theorem truncate_summary_idem (s : Str) :
    truncate_summary (truncate_summary s) = truncate_summary s :=
  truncate_summary_of_short _ (truncate_summary_ne_nil s) (truncate_summary_length_le s)

/-- C7: normalizeSummary (truncate_summary) returns text of length at
most 255; when the input exceeds the limit the ... marker is appended to
the 252-character prefix, still within the limit; empty input yields the
fixed nonempty placeholder, never an empty field; and applying the
function twice yields the same result as applying it once. -/
theorem C7_normalizeSummary_contract (s : Str) :
    (truncate_summary s).length ≤ 255 ∧
    truncate_summary s ≠ [] ∧
    (s = [] → truncate_summary s = toL "No summary provided") ∧
    (255 < s.length →
      truncate_summary s = s.take 252 ++ toL "..." ∧
      (s.take 252 ++ toL "...").length ≤ 255) ∧
    truncate_summary (truncate_summary s) = truncate_summary s := by
  refine ⟨truncate_summary_length_le s, truncate_summary_ne_nil s, ?_, ?_, truncate_summary_idem s⟩
  · intro h
    subst h
    rfl
  · intro hlong
    have hne : s ≠ [] := by
      intro h
      subst h
      simp at hlong
    have heq : truncate_summary s = s.take 252 ++ toL "..." := by
      unfold truncate_summary
      rw [if_neg hne, if_neg]
      · norm_num [MAX_SUMMARY_LENGTH]
      · simp only [MAX_SUMMARY_LENGTH]
        omega
    refine ⟨heq, ?_⟩
    rw [← heq]
    exact truncate_summary_length_le s

/-- Witness for C7 at a concrete 300-character input. -/
theorem C7_normalizeSummary_contract_witness :
    truncate_summary (List.replicate 300 'a') =
      (List.replicate 300 'a').take 252 ++ toL "..." ∧
    truncate_summary (truncate_summary (List.replicate 300 'a')) =
      truncate_summary (List.replicate 300 'a') := by
  have h := C7_normalizeSummary_contract (List.replicate 300 'a')
  exact ⟨(h.2.2.2.1 (by simp only [List.length_replicate]; omega)).1, h.2.2.2.2⟩

theorem pySplitGo_ne_nil (s : Char) (ss : List Char) :
    ∀ (fuel : Nat) (acc l : List Char), pySplitGo s ss fuel acc l ≠ [] := by
  intro fuel
  induction fuel with
  | zero =>
    intro acc l
    cases l <;> simp [pySplitGo]
  | succ fuel ih =>
    intro acc l
    cases l with
    | nil => simp [pySplitGo]
    | cons c rest =>
      simp only [pySplitGo]
      split_ifs with h
      · simp
      · exact ih _ _

theorem pySplitOn_ne_nil (l sep : Str) : pySplitOn l sep ≠ [] := by
  cases sep with
  | nil => simp [pySplitOn]
  | cons s ss => exact pySplitGo_ne_nil s ss l.length [] l

theorem pySplitGo_all (p : Char → Bool) (s : Char) (ss : List Char) :
    ∀ (fuel : Nat) (acc l : List Char), acc.all p = true → l.all p = true →
      ∀ piece ∈ pySplitGo s ss fuel acc l, piece.all p = true := by
  intro fuel
  induction fuel with
  | zero =>
    intro acc l hacc hl piece hp
    cases l with
    | nil =>
      simp only [pySplitGo, List.mem_singleton] at hp
      subst hp
      simpa using hacc
    | cons c rest =>
      simp only [pySplitGo, List.mem_singleton] at hp
      subst hp
      rw [List.all_append]
      simp only [Bool.and_eq_true, List.all_reverse]
      exact ⟨hacc, hl⟩
  | succ fuel ih =>
    intro acc l hacc hl piece hp
    cases l with
    | nil =>
      simp only [pySplitGo, List.mem_singleton] at hp
      subst hp
      simpa using hacc
    | cons c rest =>
      simp only [pySplitGo] at hp
      have hl2 := hl
      simp only [List.all_cons, Bool.and_eq_true] at hl2
      split_ifs at hp with h
      · simp only [List.mem_cons] at hp
        rcases hp with hp | hp
        · subst hp
          simpa using hacc
        · have hdrop : (rest.drop ss.length).all p = true := by
            rw [List.all_eq_true]
            intro x hx
            exact (List.all_eq_true.mp hl2.2) x (List.mem_of_mem_drop hx)
          exact ih [] _ rfl hdrop piece hp
      · have hacc2 : (c :: acc).all p = true := by
          simp only [List.all_cons, Bool.and_eq_true]
          exact ⟨hl2.1, hacc⟩
        exact ih _ _ hacc2 hl2.2 piece hp

theorem pySplitOn_all (p : Char → Bool) (l sep : Str) (hl : l.all p = true) :
    ∀ piece ∈ pySplitOn l sep, piece.all p = true := by
  cases sep with
  | nil =>
    intro piece hp
    simp only [pySplitOn, List.mem_singleton] at hp
    subst hp
    exact hl
  | cons s ss => exact pySplitGo_all p s ss l.length [] l rfl hl

theorem pyStrip_eq_nil_of_all (l : Str) (h : l.all pyIsSpace = true) : pyStrip l = [] := by
  unfold pyStrip
  have h1 : l.dropWhile pyIsSpace = [] := by
    rw [List.dropWhile_eq_nil_iff]
    exact fun x hx => (List.all_eq_true.mp h) x hx
  rw [h1]
  rfl

theorem linesToInlines_textual (ls : List Str) :
    (linesToInlines ls).all Inline.isTextual = true := by
  induction ls with
  | nil => rfl
  | cons l rest ih =>
    cases rest with
    | nil => rfl
    | cons b bs =>
      show (Inline.text l :: Inline.hardBreak :: linesToInlines (b :: bs)).all
          Inline.isTextual = true
      simp only [List.all_cons, Inline.isTextual, Bool.true_and]
      exact ih

theorem paragraphOfSegment_good (para : Str) : goodBlock (paragraphOfSegment para) = true := by
  simp only [paragraphOfSegment]
  split_ifs with h
  · exact linesToInlines_textual _
  · rfl

theorem wellFormedDoc_eq_all (d : AdfDoc) : wellFormedDoc d = d.content.all goodBlock := rfl

theorem create_adf_content_eq (t : Str) :
    (create_adf_document t).content =
      (pySplitOn t (toL "\n\n")).filterMap
        (fun para => if pyStrip para = [] then none else some (paragraphOfSegment para)) := by
  simp only [create_adf_document]
  rw [if_neg (pySplitOn_ne_nil t (toL "\n\n"))]

theorem create_adf_wellFormed (t : Str) : wellFormedDoc (create_adf_document t) = true := by
  rw [wellFormedDoc_eq_all, create_adf_content_eq, List.all_eq_true]
  intro b hb
  rw [List.mem_filterMap] at hb
  obtain ⟨para, hpara, hif⟩ := hb
  by_cases h : pyStrip para = []
  · rw [if_pos h] at hif
    exact absurd hif (by simp)
  · rw [if_neg h] at hif
    have hb2 : paragraphOfSegment para = b := Option.some.inj hif
    rw [← hb2]
    exact paragraphOfSegment_good para

/-- C8 counterexample: a dict bearing the doc envelope marker whose
content is a bulletList rather than a sequence of paragraphs passes
through format_description_for_cloud unchanged, so the output is not a
well-formed structured document; the claim asserts well-formed output for
every already-structured input. -/
theorem C8_counterexample :
    format_description_for_cloud (.structured badStructured) = badStructured ∧
    wellFormedDoc badStructured = false :=
  ⟨rfl, by decide⟩

/-- C8 (amended): for empty and plain-string input the output of
format_description_for_cloud is a well-formed structured document; input
longer than 32767 characters is truncated to 32667 characters with the
truncation notice appended, staying within the limit, before structuring;
already-structured input (any value bearing the doc envelope marker)
passes through unchanged, and is well-formed in the output exactly when
it was well-formed as input. -/
theorem C8_normalizeBody_amended (s : Str) (d : AdfDoc) :
    wellFormedDoc (format_description_for_cloud .empty) = true ∧
    wellFormedDoc (format_description_for_cloud (.str s)) = true ∧
    format_description_for_cloud (.structured d) = d ∧
    (wellFormedDoc d = true →
      wellFormedDoc (format_description_for_cloud (.structured d)) = true) ∧
    (32767 < s.length →
      format_description_for_cloud (.str s) =
        create_adf_document (s.take 32667 ++ truncNotice) ∧
      (s.take 32667 ++ truncNotice).length ≤ 32767) := by
  refine ⟨create_adf_wellFormed _, ?_, rfl, fun h => h, ?_⟩
  · show wellFormedDoc (format_description_for_cloud (.str s)) = true
    simp only [format_description_for_cloud]
    split_ifs <;> exact create_adf_wellFormed _
  · intro hlong
    have hne : s ≠ [] := by
      intro h
      subst h
      simp at hlong
    constructor
    · show format_description_for_cloud (.str s) = _
      simp only [format_description_for_cloud]
      rw [if_neg hne, if_pos]
      · rfl
      · show MAX_DESCRIPTION_LENGTH < s.length
        simpa [MAX_DESCRIPTION_LENGTH] using hlong
    · have h1 : (s.take 32667).length ≤ 32667 := List.length_take_le _ _
      have h2 : truncNotice.length = 40 := by decide
      simp only [List.length_append, h2]
      omega

/-- Witness for C8 at a concrete 40000-character input. -/
theorem C8_normalizeBody_amended_witness :
    wellFormedDoc (format_description_for_cloud (.str (List.replicate 40000 'x'))) = true ∧
    format_description_for_cloud (.str (List.replicate 40000 'x')) =
      create_adf_document ((List.replicate 40000 'x').take 32667 ++ truncNotice) := by
  have h := C8_normalizeBody_amended (List.replicate 40000 'x') badStructured
  exact ⟨h.2.1, (h.2.2.2.2 (by simp only [List.length_replicate]; omega)).1⟩

/-- C10: create_adf_document omits blank-line-delimited segments whose
content is only whitespace — its content is exactly one paragraph per
segment with nonempty stripped text — and an input consisting entirely of
whitespace yields a document with an empty content list, so the original
text is not preserved in the output. -/
theorem C10_adf_whitespace_segments (t : Str) :
    (create_adf_document t).content =
      (pySplitOn t (toL "\n\n")).filterMap
        (fun para => if pyStrip para = [] then none else some (paragraphOfSegment para)) ∧
    (t.all pyIsSpace = true → create_adf_document t = ⟨1, []⟩) := by
  refine ⟨create_adf_content_eq t, fun hws => ?_⟩
  have hall : ∀ piece ∈ pySplitOn t (toL "\n\n"), piece.all pyIsSpace = true :=
    pySplitOn_all pyIsSpace t (toL "\n\n") hws
  have hnil : (pySplitOn t (toL "\n\n")).filterMap
      (fun para => if pyStrip para = [] then none else some (paragraphOfSegment para)) = [] := by
    rw [List.filterMap_eq_nil_iff]
    intro para hp
    rw [if_pos (pyStrip_eq_nil_of_all para (hall para hp))]
  have h2 : (create_adf_document t).content = [] := by
    rw [create_adf_content_eq]
    exact hnil
  have h3 : create_adf_document t = ⟨1, (create_adf_document t).content⟩ := rfl
  rw [h3, h2]

/-- Witness for C10 at a concrete whitespace-only input. -/
theorem C10_adf_whitespace_segments_witness :
    create_adf_document (toL " \n\n \t ") = ⟨1, []⟩ :=
  (C10_adf_whitespace_segments (toL " \n\n \t ")).2 (by decide)

theorem dictGet?_dictSet_self (d : List (Str × Str)) (k v : Str) :
    dictGet? (dictSet d k v) k = some v := by
  induction d with
  | nil => simp [dictSet, dictGet?]
  | cons p rest ih =>
    rcases p with ⟨k0, v0⟩
    simp only [dictSet]
    split_ifs with h0
    · subst h0
      simp [dictGet?, List.find?_cons]
    · simp only [dictGet?, List.find?_cons]
      have : (k0 == k) = false := by simp [h0]
      rw [this]
      exact ih

theorem dictGet?_dictSet_ne (d : List (Str × Str)) (k v k' : Str) (h : k' ≠ k) :
    dictGet? (dictSet d k v) k' = dictGet? d k' := by
  induction d with
  | nil =>
    simp [dictSet, dictGet?, List.find?_cons, Ne.symm h]
  | cons p rest ih =>
    rcases p with ⟨k0, v0⟩
    simp only [dictSet]
    split_ifs with h0
    · subst h0
      have : (k0 == k') = false := by simp [Ne.symm h]
      simp only [dictGet?, List.find?_cons, this]
    · simp only [dictGet?, List.find?_cons]
      cases hbe : (k0 == k') with
      | true => rfl
      | false => exact ih

theorem lookup_foldl_build (f : Str → Option Str) :
    ∀ (sources : List Str) (m0 : List (Str × Str)) (s : Str),
      dictGet? (sources.foldl (fun m x =>
          match f x with
          | some v => dictSet m x v
          | none => m) m0) s
        = if s ∈ sources ∧ (f s).isSome then f s else dictGet? m0 s := by
  intro sources
  induction sources with
  | nil =>
    intro m0 s
    simp
  | cons x rest ih =>
    intro m0 s
    rw [List.foldl_cons, ih]
    by_cases hmem : s ∈ rest ∧ (f s).isSome
    · rw [if_pos hmem, if_pos ⟨List.mem_cons_of_mem x hmem.1, hmem.2⟩]
    · rw [if_neg hmem]
      by_cases hx : x = s
      · subst hx
        cases hf : f x with
        | some v =>
          show dictGet? (dictSet m0 x v) x = _
          rw [dictGet?_dictSet_self, if_pos ⟨List.mem_cons_self x rest, rfl⟩]
        | none =>
          show dictGet? m0 x = _
          rw [if_neg]
          rintro ⟨_, hsome⟩
          simp at hsome
      · have hcond : ¬(s ∈ x :: rest ∧ (f s).isSome) := by
          rintro ⟨hin, hsome⟩
          rcases List.mem_cons.mp hin with h | h
          · exact hx h.symm
          · exact hmem ⟨h, hsome⟩
        cases hf : f x with
        | some v =>
          show dictGet? (dictSet m0 x v) s = _
          rw [dictGet?_dictSet_ne _ _ _ _ (fun h => hx h.symm), if_neg hcond]
        | none =>
          show dictGet? m0 s = _
          rw [if_neg hcond]

theorem dictGet?_isSome_eq (d : List (Str × Str)) (k : Str) :
    (dictGet? d k).isSome = dictHas d k := by
  simp [dictGet?, dictHas]

theorem dictSet_ne_nil (d : List (Str × Str)) (k v : Str) : dictSet d k v ≠ [] := by
  cases d with
  | nil => simp [dictSet]
  | cons p rest =>
    simp only [dictSet]
    split_ifs <;> simp

theorem foldl_dictSet_ne_nil (ps : List (Str × Str)) :
    ∀ d : List (Str × Str), d ≠ [] → ps.foldl (fun t p => dictSet t p.1 p.2) d ≠ [] := by
  induction ps with
  | nil => intro d hd; exact hd
  | cons p rest ih =>
    intro d _
    rw [List.foldl_cons]
    exact ih _ (dictSet_ne_nil d p.1 p.2)

theorem dictOfPairs_ne_nil (ps : List (Str × Str)) (h : ps ≠ []) : dictOfPairs ps ≠ [] := by
  cases ps with
  | nil => exact absurd rfl h
  | cons p rest =>
    show List.foldl _ _ (p :: rest) ≠ []
    rw [List.foldl_cons]
    exact foldl_dictSet_ne_nil rest _ (dictSet_ne_nil [] p.1 p.2)

theorem issueTypeFor_isSome (dm : List (Str × Str)) (dest_types : List DestEntity)
    (hne : dest_types ≠ []) (s : Str) : (issueTypeFor dm dest_types s).isSome = true := by
  simp only [issueTypeFor]
  cases h1 : dictGet? dm (pyLower s) with
  | some v => simp [h1]
  | none =>
    simp only [h1]
    cases h2 : common_types.find? (fun ct => pyInfix ct (pyLower s) && dictHas dm ct) with
    | some ct =>
      have hp := List.find?_some h2
      simp only [Bool.and_eq_true] at hp
      cases h3 : dictGet? dm ct with
      | some v => simp [h1, h2, h3]
      | none =>
        rw [← dictGet?_isSome_eq, h3] at hp
        simp at hp
    | none =>
      simp only [h1, h2]
      split_ifs with h3
      · rw [← dictGet?_isSome_eq] at h3
        cases h4 : dictGet? dm (toL "task") with
        | some v => simp [h4]
        | none => rw [h4] at h3; simp at h3
      · cases dest_types with
        | nil => exact absurd rfl hne
        | cons t ts => simp

theorem statusFor_isSome (dm : List (Str × Str)) (dest_statuses : List DestEntity)
    (hne : dest_statuses ≠ []) (s : Str) : (statusFor dm dest_statuses s).isSome = true := by
  simp only [statusFor]
  cases h1 : dictGet? dm (pyLower s) with
  | some v => simp [h1]
  | none =>
    simp only [h1]
    cases h2 : status_categories.find?
        (fun c => (c.2.any fun kw => pyInfix kw (pyLower s)) && dictHas dm c.1) with
    | some c =>
      have hp := List.find?_some h2
      simp only [Bool.and_eq_true] at hp
      cases h3 : dictGet? dm c.1 with
      | some v => simp [h3]
      | none =>
        rw [← dictGet?_isSome_eq, h3] at hp
        simp at hp
    | none =>
      cases dest_statuses with
      | nil => exact absurd rfl hne
      | cons t ts => simp [h1, h2]

theorem linkTypeFor_isSome (dl : List (Str × Str)) (hne : dl ≠ []) (s : Str) :
    (linkTypeFor dl s).isSome = true := by
  simp only [linkTypeFor]
  by_cases h1 : dictHas dl (pyLower s) = true
  · rw [if_pos h1]
    rfl
  · rw [if_neg h1]
    cases h2 : linkSynonymScan dl (pyLower s) STANDARD_LINK_TYPES with
    | some v => simp [h2]
    | none =>
      simp only [h2]
      split_ifs with h3
      · rfl
      · cases dl with
        | nil => exact absurd rfl hne
        | cons p ps => rfl

theorem create_issue_type_mapping_lookup (source_types : List Str)
    (dest_entities : List DestEntity) (s : Str) (hs : s ∈ source_types) :
    dictGet? (create_issue_type_mapping source_types dest_entities) s =
      issueTypeFor (dictOfPairs (dest_entities.map fun t => (pyLower t.name, t.id)))
        dest_entities s := by
  simp only [create_issue_type_mapping]
  rw [lookup_foldl_build]
  cases hf : issueTypeFor (dictOfPairs (dest_entities.map fun t => (pyLower t.name, t.id)))
      dest_entities s with
  | some v =>
    rw [if_pos ⟨hs, by simp [hf]⟩]
  | none =>
    rw [if_neg (by rintro ⟨_, hsome⟩; simp at hsome)]
    simp [dictGet?]

theorem create_status_mapping_lookup (source_statuses : List Str)
    (dest_statuses : List DestEntity) (s : Str) (hs : s ∈ source_statuses) :
    dictGet? (create_status_mapping source_statuses dest_statuses) s =
      statusFor (dictOfPairs (dest_statuses.map fun e => (pyLower e.name, e.id)))
        dest_statuses s := by
  simp only [create_status_mapping]
  rw [lookup_foldl_build]
  cases hf : statusFor (dictOfPairs (dest_statuses.map fun e => (pyLower e.name, e.id)))
      dest_statuses s with
  | some v =>
    rw [if_pos ⟨hs, by simp [hf]⟩]
  | none =>
    rw [if_neg (by rintro ⟨_, hsome⟩; simp at hsome)]
    simp [dictGet?]

theorem create_link_type_mapping_lookup (source_types : List Str)
    (dest_links : List (Str × Str)) (s : Str) (hs : s ∈ source_types) :
    dictGet? (create_link_type_mapping source_types dest_links) s =
      linkTypeFor (dictOfPairs (dest_links.map fun p => (pyLower p.1, p.2))) s := by
  simp only [create_link_type_mapping]
  rw [lookup_foldl_build]
  cases hf : linkTypeFor (dictOfPairs (dest_links.map fun p => (pyLower p.1, p.2))) s with
  | some v =>
    rw [if_pos ⟨hs, by simp [hf]⟩]
  | none =>
    rw [if_neg (by rintro ⟨_, hsome⟩; simp at hsome)]
    simp [dictGet?]

theorem linkTypeFor_eq_rungs (dl : List (Str × Str)) (s : Str) :
    linkTypeFor dl s = linkRungs dl s := by
  simp only [linkTypeFor, linkRungs, orElse2]
  by_cases h1 : dictHas dl (pyLower s) = true
  · simp [h1]
  · simp only [h1]
    cases h2 : linkSynonymScan dl (pyLower s) STANDARD_LINK_TYPES with
    | some v => simp [h1, h2]
    | none =>
      simp only [h2]
      by_cases h3 : dictHas dl (toL "relates to") = true
      · simp [h1, h3]
      · simp only [h1, h3]
        cases dl with
        | nil => simp
        | cons p ps => simp

theorem statusFor_eq_rungs (dm : List (Str × Str)) (dest_statuses : List DestEntity)
    (s : Str) : statusFor dm dest_statuses s = statusRungs dm dest_statuses s := by
  simp only [statusFor, statusRungs, orElse2]
  cases h1 : dictGet? dm (pyLower s) with
  | some v => simp [h1]
  | none =>
    simp only [h1]
    cases h2 : status_categories.find?
        (fun c => (c.2.any fun kw => pyInfix kw (pyLower s)) && dictHas dm c.1) with
    | some c =>
      simp only [h2, Option.some_bind]
      have hp := List.find?_some h2
      simp only [Bool.and_eq_true] at hp
      cases h3 : dictGet? dm c.1 with
      | some v => simp [h3]
      | none =>
        rw [← dictGet?_isSome_eq, h3] at hp
        simp at hp
    | none =>
      simp only [h2, Option.none_bind]
      cases dest_statuses with
      | nil => simp
      | cons t ts => simp

theorem issueTypeFor_eq_rungs (dm : List (Str × Str)) (dest_types : List DestEntity)
    (s : Str) : issueTypeFor dm dest_types s = issueTypeRungs dm dest_types s := by
  simp only [issueTypeFor, issueTypeRungs, orElse2]
  cases h1 : dictGet? dm (pyLower s) with
  | some v => simp [h1]
  | none =>
    simp only [h1]
    cases h2 : common_types.find? (fun ct => pyInfix ct (pyLower s) && dictHas dm ct) with
    | some ct =>
      simp only [h2, Option.some_bind]
      have hp := List.find?_some h2
      simp only [Bool.and_eq_true] at hp
      cases h3 : dictGet? dm ct with
      | some v => simp [h3]
      | none =>
        rw [← dictGet?_isSome_eq, h3] at hp
        simp at hp
    | none =>
      simp only [h2, Option.none_bind]
      by_cases h3 : dictHas dm (toL "task") = true
      · simp only [h3, if_true]
        cases h4 : dictGet? dm (toL "task") with
        | some v => simp [h4]
        | none =>
          rw [← dictGet?_isSome_eq, h4] at h3
          simp at h3
      · simp only [h3, if_false]
        cases dest_types with
        | nil => simp
        | cons t ts => simp

/-- C5: for every source name in the fed category, each of the three
mapping builders produces a mapping entry whenever the destination
category is nonempty; only an empty destination category may leave a
source name unmapped. -/
theorem C5_mapping_totality (source_types : List Str) (s : Str) (hs : s ∈ source_types)
    (dest_entities : List DestEntity) (hde : dest_entities ≠ [])
    (dest_links : List (Str × Str)) (hdl : dest_links ≠ []) :
    (dictGet? (create_issue_type_mapping source_types dest_entities) s).isSome = true ∧
    (dictGet? (create_status_mapping source_types dest_entities) s).isSome = true ∧
    (dictGet? (create_link_type_mapping source_types dest_links) s).isSome = true := by
  refine ⟨?_, ?_, ?_⟩
  · rw [create_issue_type_mapping_lookup source_types dest_entities s hs]
    exact issueTypeFor_isSome _ _ hde s
  · rw [create_status_mapping_lookup source_types dest_entities s hs]
    exact statusFor_isSome _ _ hde s
  · rw [create_link_type_mapping_lookup source_types dest_links s hs]
    apply linkTypeFor_isSome
    apply dictOfPairs_ne_nil
    simp [hdl]

/-- Witness for C5 at a concrete source name and nonempty destinations. -/
theorem C5_mapping_totality_witness :
    (dictGet? (create_issue_type_mapping [toL "Story"] c6DemoDest) (toL "Story")).isSome
        = true ∧
    (dictGet? (create_status_mapping [toL "Story"] c6DemoDest) (toL "Story")).isSome
        = true ∧
    (dictGet? (create_link_type_mapping [toL "Story"] c9Dlt) (toL "Story")).isSome
        = true := by
  have h := C5_mapping_totality [toL "Story"] (toL "Story") (by decide) c6DemoDest
    (by decide) c9Dlt (by decide)
  exact h

/-- C6 counterexample: for source status new against destinations
[Done, Backlog], the code maps new to the id of Done (rule 4, first
destination status: its category rule matches keywords by substring and
requires the literal category name to do to exist in the destination,
which it does not), while the precedence the claim states maps new to
the id of Backlog (rule 2, redirecting to the synonym of new that exists
in the destination).  -/
theorem C6_counterexample :
    dictGet? (create_status_mapping [toL "new"] c6DemoDest) (toL "new") = some (toL "3") ∧
    claimStatusRule c6DemoDest (toL "new") = some (toL "2") ∧
    some (toL "3") ≠ some (toL "2") := by
  refine ⟨by decide, by decide, by decide⟩

/-- C6 (amended): for every source name fed to a mapping builder the
resulting entry is the first applicable rung of a per-category cascade —
for link types: case-insensitive exact match, then the synonym-table
scan (answering the group primary name if the destination has it, else
the first alternative the destination has, consulting later groups
otherwise), then the default relation relates to, then the first
destination entry; for statuses: exact match, then the first category
one of whose keywords is a substring of the source name and whose
category name exists in the destination, then the first destination
status; for issue types: exact match, then the first common type that is
a substring of the source name and exists in the destination, then the
destination Task type, then the first destination type.  An earlier
applicable rung determines the result and later rungs are not
consulted. -/
theorem C6_schema_mapper_precedence (source_types : List Str) (s : Str)
    (hs : s ∈ source_types) (dest_entities : List DestEntity)
    (dest_links : List (Str × Str)) :
    dictGet? (create_link_type_mapping source_types dest_links) s =
      linkRungs (dictOfPairs (dest_links.map fun p => (pyLower p.1, p.2))) s ∧
    dictGet? (create_status_mapping source_types dest_entities) s =
      statusRungs (dictOfPairs (dest_entities.map fun e => (pyLower e.name, e.id)))
        dest_entities s ∧
    dictGet? (create_issue_type_mapping source_types dest_entities) s =
      issueTypeRungs (dictOfPairs (dest_entities.map fun e => (pyLower e.name, e.id)))
        dest_entities s := by
  refine ⟨?_, ?_, ?_⟩
  · rw [create_link_type_mapping_lookup source_types dest_links s hs]
    exact linkTypeFor_eq_rungs _ s
  · rw [create_status_mapping_lookup source_types dest_entities s hs]
    exact statusFor_eq_rungs _ _ s
  · rw [create_issue_type_mapping_lookup source_types dest_entities s hs]
    exact issueTypeFor_eq_rungs _ _ s

/-- Witness for C6 at a concrete source name. -/
theorem C6_schema_mapper_precedence_witness :
    dictGet? (create_link_type_mapping [toL "custom-blocks"] c9Dlt) (toL "custom-blocks") =
      linkRungs (dictOfPairs (c9Dlt.map fun p => (pyLower p.1, p.2))) (toL "custom-blocks") ∧
    dictGet? (create_status_mapping [toL "custom-blocks"] c6DemoDest) (toL "custom-blocks") =
      statusRungs (dictOfPairs (c6DemoDest.map fun e => (pyLower e.name, e.id)))
        c6DemoDest (toL "custom-blocks") ∧
    dictGet? (create_issue_type_mapping [toL "custom-blocks"] c6DemoDest)
        (toL "custom-blocks") =
      issueTypeRungs (dictOfPairs (c6DemoDest.map fun e => (pyLower e.name, e.id)))
        c6DemoDest (toL "custom-blocks") :=
  C6_schema_mapper_precedence [toL "custom-blocks"] (toL "custom-blocks") (by decide)
    c6DemoDest c9Dlt

theorem gapsOfSorted_cons_cons (a b : Int) (rest : List Int) :
    gapsOfSorted (a :: b :: rest) =
      (if b - a > 1 then [⟨a + 1, b - 1, gapReason⟩] else []) ++ gapsOfSorted (b :: rest) :=
  rfl

theorem gapsOfSorted_eq_adjacentGaps : ∀ l : List Int, gapsOfSorted l = adjacentGaps l := by
  intro l
  induction l with
  | nil => rfl
  | cons a tl ih =>
    cases tl with
    | nil => rfl
    | cons b rest =>
      rw [gapsOfSorted_cons_cons, ih]
      simp only [adjacentGaps, List.tail_cons, List.zip_cons_cons, List.filterMap_cons]
      split_ifs with h
      · simp
      · simp

theorem gapsOfSorted_start_lt (x : Int) (l : List Int)
    (hs : List.Sorted (fun a b : Int => a ≤ b) (x :: l)) :
    ∀ g ∈ gapsOfSorted (x :: l), x < g.start_number := by
  induction l generalizing x with
  | nil =>
    intro g hg
    simp [gapsOfSorted] at hg
  | cons b rest ih =>
    intro g hg
    have hxb : x ≤ b := (List.sorted_cons.mp hs).1 b (by simp)
    have hs2 : List.Sorted (fun a b : Int => a ≤ b) (b :: rest) := (List.sorted_cons.mp hs).2
    rw [gapsOfSorted_cons_cons, List.mem_append] at hg
    rcases hg with hg | hg
    · split_ifs at hg with h
      · simp only [List.mem_singleton] at hg
        subst hg
        show x < x + 1
        omega
      · simp at hg
    · exact lt_of_le_of_lt hxb (ih b hs2 g hg)

theorem gapsOfSorted_chain : ∀ l : List Int, List.Sorted (fun a b : Int => a ≤ b) l →
    List.Chain' (fun g h => g.end_number + 1 < h.start_number) (gapsOfSorted l) := by
  intro l
  induction l with
  | nil => intro _; simp [gapsOfSorted]
  | cons a tl ih =>
    intro hs
    cases tl with
    | nil => simp [gapsOfSorted]
    | cons b rest =>
      have hs2 : List.Sorted (fun a b : Int => a ≤ b) (b :: rest) := (List.sorted_cons.mp hs).2
      have ihc := ih hs2
      rw [gapsOfSorted_cons_cons]
      split_ifs with h
      · rw [List.singleton_append, List.chain'_cons']
        constructor
        · intro y hy
          have hmem : y ∈ gapsOfSorted (b :: rest) := List.mem_of_mem_head? hy
          have hlt := gapsOfSorted_start_lt b rest hs2 y hmem
          show (b - 1) + 1 < y.start_number
          omega
        · exact ihc
      · rw [List.nil_append]
        exact ihc

theorem gapsOfSorted_sound : ∀ l : List Int,
    ∀ g ∈ gapsOfSorted l, g.start_number ≤ g.end_number ∧ g.reason = gapReason := by
  intro l
  induction l with
  | nil => simp [gapsOfSorted]
  | cons a tl ih =>
    cases tl with
    | nil => simp [gapsOfSorted]
    | cons b rest =>
      intro g hg
      rw [gapsOfSorted_cons_cons, List.mem_append] at hg
      rcases hg with hg | hg
      · split_ifs at hg with h
        · simp only [List.mem_singleton] at hg
          subst hg
          refine ⟨?_, rfl⟩
          show a + 1 ≤ b - 1
          omega
        · simp at hg
      · exact ih g hg

theorem gapsOfSorted_cover : ∀ l : List Int, List.Sorted (fun a b : Int => a ≤ b) l →
    ∀ n : Int,
      (∃ g ∈ gapsOfSorted l, g.start_number ≤ n ∧ n ≤ g.end_number) ↔
        (n ∉ l ∧ (∃ a ∈ l, a < n) ∧ (∃ b ∈ l, n < b)) := by
  intro l
  induction l with
  | nil =>
    intro _ n
    simp [gapsOfSorted]
  | cons a tl ih =>
    intro hs n
    cases tl with
    | nil =>
      constructor
      · rintro ⟨g, hg, _⟩
        simp [gapsOfSorted] at hg
      · rintro ⟨hn, ⟨x, hx, hxn⟩, ⟨y, hy, hny⟩⟩
        simp only [List.mem_singleton] at hx hy
        subst hx
        subst hy
        omega
    | cons b rest =>
      have hab : a ≤ b := (List.sorted_cons.mp hs).1 b (by simp)
      have hale : ∀ x ∈ b :: rest, a ≤ x := (List.sorted_cons.mp hs).1
      have hs2 : List.Sorted (fun a b : Int => a ≤ b) (b :: rest) := (List.sorted_cons.mp hs).2
      have hble : ∀ x ∈ rest, b ≤ x := (List.sorted_cons.mp hs2).1
      have ihn := ih hs2 n
      constructor
      · rintro ⟨g, hg, hgn1, hgn2⟩
        rw [gapsOfSorted_cons_cons, List.mem_append] at hg
        rcases hg with hg | hg
        · split_ifs at hg with hwide
          · simp only [List.mem_singleton] at hg
            subst hg
            have hgn1b : a + 1 ≤ n := hgn1
            have hgn2b : n ≤ b - 1 := hgn2
            refine ⟨?_, ⟨a, by simp, by omega⟩, ⟨b, by simp, by omega⟩⟩
            intro hmem
            rcases List.mem_cons.mp hmem with h | hmem2
            · omega
            · rcases List.mem_cons.mp hmem2 with h | hmem3
              · omega
              · have := hble n hmem3
                omega
          · simp at hg
        · obtain ⟨hn2, ⟨x, hx, hxn⟩, ⟨y, hy, hny⟩⟩ := ihn.mp ⟨g, hg, hgn1, hgn2⟩
          refine ⟨?_, ⟨x, List.mem_cons_of_mem a hx, hxn⟩, ⟨y, List.mem_cons_of_mem a hy, hny⟩⟩
          intro hmem
          rcases List.mem_cons.mp hmem with h | h
          · subst h
            have := hale x hx
            omega
          · exact hn2 h
      · rintro ⟨hnmem, ⟨x, hx, hxn⟩, ⟨y, hy, hny⟩⟩
        rw [gapsOfSorted_cons_cons]
        by_cases hnb : n < b
        · have hna : a < n := by
            rcases List.mem_cons.mp hx with h | h
            · omega
            · have hbx : b ≤ x := by
                rcases List.mem_cons.mp h with h2 | h2
                · omega
                · exact hble x h2
              omega
          have hwide : b - a > 1 := by omega
          rw [if_pos hwide]
          refine ⟨⟨a + 1, b - 1, gapReason⟩, ?_, by show a + 1 ≤ n; omega, by show n ≤ b - 1; omega⟩
          rw [List.mem_append]
          left
          simp
        · have hnb2 : b < n := by
            have hne : n ≠ b := fun h => hnmem (by rw [h]; simp)
            omega
          have hy2 : y ∈ b :: rest := by
            rcases List.mem_cons.mp hy with h | h
            · exfalso
              omega
            · exact h
          have hn2 : n ∉ b :: rest := fun h => hnmem (List.mem_cons_of_mem a h)
          obtain ⟨g, hg, h1, h2⟩ := ihn.mpr ⟨hn2, ⟨b, by simp, hnb2⟩, ⟨y, hy2, hny⟩⟩
          refine ⟨g, ?_, h1, h2⟩
          rw [List.mem_append]
          right
          exact hg

/-- C4 counterexample: the code parses int(key.split(dash)[1]), the
integer in the second dash-separated segment, not the trailing integer.
For keys [P-1, P-3-x] the claim as stated skips P-3-x (its suffix x is
not a valid integer) and reports no gaps, while the code parses 3 from
the middle segment of P-3-x and reports the gap (2, 2). -/
theorem C4_counterexample :
    detect_issue_gaps c4DemoKeys = [⟨2, 2, gapReason⟩] ∧
    claimDetectGaps c4DemoKeys = [] ∧
    ([⟨2, 2, gapReason⟩] : List IssueGap) ≠ [] := by
  refine ⟨by decide, by decide, by decide⟩

/-- C4 (amended): gap detection parses the integer in the second
dash-separated segment of each key (skipping keys where that segment is
absent or not a valid integer), sorts the parsed integers ascending, and
emits exactly one gap (a+1, b-1) for every adjacent sorted pair (a, b)
with b - a > 1; the returned gaps are nonempty, disjoint, sorted,
minimal (no two adjacent gaps can merge), and exactly cover the integers
that are missing from the parsed set yet lie strictly between two parsed
values; input yielding at most one parsed number gives no gaps. -/
theorem C4_gap_detection_amended (issue_keys : List Str) :
    detect_issue_gaps issue_keys =
      adjacentGaps (sortInts (issue_keys.filterMap parseIssueNumber)) ∧
    (∀ g ∈ detect_issue_gaps issue_keys,
      g.start_number ≤ g.end_number ∧ g.reason = gapReason) ∧
    List.Chain' (fun g h => g.end_number + 1 < h.start_number)
      (detect_issue_gaps issue_keys) ∧
    (∀ n : Int,
      (∃ g ∈ detect_issue_gaps issue_keys, g.start_number ≤ n ∧ n ≤ g.end_number) ↔
        (n ∉ issue_keys.filterMap parseIssueNumber ∧
         (∃ a ∈ issue_keys.filterMap parseIssueNumber, a < n) ∧
         (∃ b ∈ issue_keys.filterMap parseIssueNumber, n < b))) ∧
    ((issue_keys.filterMap parseIssueNumber).length ≤ 1 →
      detect_issue_gaps issue_keys = []) := by
  by_cases hnil : issue_keys.filterMap parseIssueNumber = []
  · have hd : detect_issue_gaps issue_keys = [] := by
      simp only [detect_issue_gaps]
      rw [if_pos hnil]
    refine ⟨?_, ?_, ?_, ?_, fun _ => hd⟩
    · rw [hd, hnil]
      rfl
    · rw [hd]
      simp
    · rw [hd]
      simp
    · intro n
      rw [hd, hnil]
      simp
  · have hd : detect_issue_gaps issue_keys =
        gapsOfSorted (sortInts (issue_keys.filterMap parseIssueNumber)) := by
      simp only [detect_issue_gaps]
      rw [if_neg hnil]
    have hsorted : List.Sorted (fun a b : Int => a ≤ b)
        (sortInts (issue_keys.filterMap parseIssueNumber)) :=
      List.sorted_insertionSort _ _
    have hperm : List.Perm (sortInts (issue_keys.filterMap parseIssueNumber))
        (issue_keys.filterMap parseIssueNumber) :=
      List.perm_insertionSort _ _
    refine ⟨?_, ?_, ?_, ?_, ?_⟩
    · rw [hd]
      exact gapsOfSorted_eq_adjacentGaps _
    · rw [hd]
      exact gapsOfSorted_sound _
    · rw [hd]
      exact gapsOfSorted_chain _ hsorted
    · intro n
      rw [hd]
      have hcov := gapsOfSorted_cover _ hsorted n
      simpa only [hperm.mem_iff] using hcov
    · intro hlen
      rw [hd]
      have hlen2 : (sortInts (issue_keys.filterMap parseIssueNumber)).length ≤ 1 := by
        rw [hperm.length_eq]
        exact hlen
      cases hsl : sortInts (issue_keys.filterMap parseIssueNumber) with
      | nil => rfl
      | cons x tl =>
        cases tl with
        | nil => rfl
        | cons y tl2 =>
          rw [hsl] at hlen2
          simp at hlen2

/-- Witness for C4 at the worked example of the specification: keys with
numbers [1, 2, 4, 5, 8] give gaps [(3, 3), (6, 7)], and those gaps are
disjoint, sorted and unmergeable. -/
theorem C4_gap_detection_amended_witness :
    detect_issue_gaps c4ExampleKeys = [⟨3, 3, gapReason⟩, ⟨6, 7, gapReason⟩] ∧
    List.Chain' (fun g h => g.end_number + 1 < h.start_number)
      (detect_issue_gaps c4ExampleKeys) ∧
    detect_issue_gaps [toL "PROJ-1"] = [] := by
  refine ⟨by decide, (C4_gap_detection_amended c4ExampleKeys).2.2.1,
    (C4_gap_detection_amended [toL "PROJ-1"]).2.2.2.2 (by decide)⟩

theorem sourceLinkTypes_singleton (l : LinkRec) : sourceLinkTypes [l] = [l.link_type] := by
  simp [sourceLinkTypes]

/-- C9: for a link whose endpoints are both mapped and whose source link
type matches the destination neither directly nor through the synonym
table, while the destination offers relates to, the relationship
synchronizer creates one relates-to link between the mapped endpoints and
counts it as created, with no link counted as failed. -/
theorem C9_link_fallback (env : Env) (w : World) (imap dlt : List (Str × Str)) (l : LinkRec)
    (ms mt : Str)
    (h1 : dictGet? imap l.source_issue = some ms)
    (h2 : dictGet? imap l.target_issue = some mt)
    (h3 : dictHas (dictOfPairs (dlt.map fun p => (pyLower p.1, p.2)))
        (pyLower l.link_type) = false)
    (h4 : linkSynonymScan (dictOfPairs (dlt.map fun p => (pyLower p.1, p.2)))
        (pyLower l.link_type) STANDARD_LINK_TYPES = none)
    (h5 : dictHas (dictOfPairs (dlt.map fun p => (pyLower p.1, p.2)))
        (toL "relates to") = true)
    (h6 : env.create_issue_link ms mt (toL "relates to") = .ok ())
    (h7 : env.get_all_issue_links (imap.map Prod.fst) = .ok [l])
    (h8 : env.get_all_epic_links (imap.map Prod.fst) = .ok []) :
    synchronize_relationships env (some dlt) imap w =
      ({ w with createdLinks := w.createdLinks ++ [(ms, mt, toL "relates to")] },
       .ok (1, 0)) := by
  have hlt : dictGet? (create_link_type_mapping [l.link_type] dlt) l.link_type =
      some (toL "relates to") := by
    rw [create_link_type_mapping_lookup [l.link_type] dlt l.link_type (by simp)]
    simp only [linkTypeFor]
    rw [if_neg (by simp [h3])]
    simp only [h4]
    rw [if_pos h5]
  have hloop : linkLoop env imap (create_link_type_mapping (sourceLinkTypes [l]) dlt) dlt
      [l] w 0 0 =
      ({ w with createdLinks := w.createdLinks ++ [(ms, mt, toL "relates to")] }, 1, 0) := by
    rw [sourceLinkTypes_singleton]
    simp only [linkLoop, h1, h2, hlt, h6]
  simp only [synchronize_relationships, h7, hloop, h8, epicLoop]

/-- Witness for C9 at the scenario of the claim: source link type
custom-blocks, destination offering only relates to. -/
theorem C9_link_fallback_witness :
    synchronize_relationships demoEnvC9 (some c9Dlt) c9Imap emptyWorld =
      ({ emptyWorld with
          createdLinks := emptyWorld.createdLinks ++ [(toL "D-1", toL "D-2", toL "relates to")] },
       .ok (1, 0)) :=
  C9_link_fallback demoEnvC9 emptyWorld c9Imap c9Dlt c9Link (toL "D-1") (toL "D-2")
    (by decide) (by decide) (by decide) (by decide) (by decide) rfl rfl rfl

theorem process_single_sessions (env : Env) (maps? : Option SchemaMappings) (sid dp : Str)
    (w : World) (iss : Issue) :
    (process_single_issue env maps? sid dp w iss).1.sessions = w.sessions := by
  simp only [process_single_issue]
  cases maps? with
  | none => rfl
  | some maps =>
    cases env.get_issue_types_for_project with
    | error e => rfl
    | ok dts =>
      cases env.create_issue iss with
      | error e => rfl
      | ok dk => simp [add_issue_mapping]

theorem seqLoop_sessions (env : Env) (maps? : Option SchemaMappings) (sid dp : Str)
    (total : Nat) :
    ∀ (issues : List Issue) (i : Nat) (w : World) (acc : SeqRes),
      (seqLoop env maps? sid dp total issues i w acc).1.sessions = w.sessions := by
  intro issues
  induction issues with
  | nil => intro i w acc; rfl
  | cons iss rest ih =>
    intro i w acc
    simp only [seqLoop]
    have hw1 : (if i % env.batch_size == 0 then
        create_checkpoint w sid (toL "issue_processing") i total (some iss.key)
      else w).sessions = w.sessions := by
      split_ifs <;> rfl
    cases hps : process_single_issue env maps? sid dp (if i % env.batch_size == 0 then
        create_checkpoint w sid (toL "issue_processing") i total (some iss.key)
      else w) iss with
    | mk w2 res =>
      have hw2 : w2.sessions = w.sessions := by
        have hp := process_single_sessions env maps? sid dp (if i % env.batch_size == 0 then
          create_checkpoint w sid (toL "issue_processing") i total (some iss.key) else w) iss
        rw [hps] at hp
        rw [hp]
        exact hw1
      cases res with
      | ok r => exact (ih (i + 1) w2 _).trans hw2
      | error e => exact (ih (i + 1) w2 _).trans hw2

theorem process_issues_sequentially_ok (env : Env) (maps? : Option SchemaMappings)
    (sid sp dp : Str) (sf : Option Str) (w : World) (issues : List Issue)
    (hI : env.get_issues_in_order = .ok issues) :
    ∃ w2 acc, process_issues_sequentially env maps? sid sp dp sf w = (w2, .ok acc) ∧
      w2.sessions = w.sessions := by
  simp only [process_issues_sequentially, hI]
  refine ⟨_, _, rfl, ?_⟩
  show (save_issue_mapping _ _ _).sessions = w.sessions
  have hsave : ∀ (w3 : World) (m : List (Str × Str)),
      (save_issue_mapping w3 sid m).sessions = w3.sessions := fun _ _ => rfl
  rw [hsave]
  exact seqLoop_sessions env maps? sid dp issues.length _ _ _ _

theorem create_fallback_link_inv (env : Env) (w : World) (a b : Str)
    (avail : List (Str × Str)) :
    (create_fallback_link env w a b avail).1.sessions = w.sessions ∧
    (create_fallback_link env w a b avail).1.mappings = w.mappings := by
  rcases avail with _ | ⟨⟨pk, pv⟩, ps⟩
  · simp only [create_fallback_link]
    split_ifs with h1
    · cases env.create_issue_link a b (toL "relates to") with
      | ok u => exact ⟨rfl, rfl⟩
      | error e => exact ⟨rfl, rfl⟩
    · exact ⟨rfl, rfl⟩
  · simp only [create_fallback_link]
    split_ifs with h1
    · cases env.create_issue_link a b (toL "relates to") with
      | ok u => exact ⟨rfl, rfl⟩
      | error e =>
        cases env.create_issue_link a b pk with
        | ok u => exact ⟨rfl, rfl⟩
        | error e2 => exact ⟨rfl, rfl⟩
    · cases env.create_issue_link a b pk with
      | ok u => exact ⟨rfl, rfl⟩
      | error e2 => exact ⟨rfl, rfl⟩

theorem linkLoop_inv (env : Env) (imap ltm dlt : List (Str × Str)) :
    ∀ (links : List LinkRec) (w : World) (c f : Nat),
      (linkLoop env imap ltm dlt links w c f).1.sessions = w.sessions ∧
      (linkLoop env imap ltm dlt links w c f).1.mappings = w.mappings := by
  intro links
  induction links with
  | nil => intro w c f; exact ⟨rfl, rfl⟩
  | cons l rest ih =>
    intro w c f
    simp only [linkLoop]
    cases dictGet? imap l.source_issue with
    | none => exact ih w c f
    | some ms =>
      cases dictGet? imap l.target_issue with
      | none => exact ih w c f
      | some mt =>
        dsimp only
        cases dictGet? ltm l.link_type with
        | some mlt =>
          dsimp only
          cases env.create_issue_link ms mt mlt with
          | ok u => exact ⟨(ih _ _ _).1, (ih _ _ _).2⟩
          | error e => exact ih w c (f + 1)
        | none =>
          dsimp only
          cases hfb : create_fallback_link env w ms mt dlt with
          | mk w2 ok2 =>
            have hinv := create_fallback_link_inv env w ms mt dlt
            rw [hfb] at hinv
            cases ok2 with
            | true => exact ⟨((ih _ _ _).1).trans hinv.1, ((ih _ _ _).2).trans hinv.2⟩
            | false => exact ⟨((ih _ _ _).1).trans hinv.1, ((ih _ _ _).2).trans hinv.2⟩

theorem epicLoop_inv (env : Env) (imap : List (Str × Str)) :
    ∀ (epics : List EpicLink) (w : World) (c f : Nat),
      (epicLoop env imap epics w c f).1.sessions = w.sessions ∧
      (epicLoop env imap epics w c f).1.mappings = w.mappings := by
  intro epics
  induction epics with
  | nil => intro w c f; exact ⟨rfl, rfl⟩
  | cons e rest ih =>
    intro w c f
    simp only [epicLoop]
    cases dictGet? imap e.epic_key with
    | none => exact ih w c f
    | some me =>
      cases dictGet? imap e.issue_key with
      | none => exact ih w c f
      | some mi =>
        dsimp only
        cases env.create_epic_link me mi with
        | ok u => exact ⟨(ih _ _ _).1, (ih _ _ _).2⟩
        | error e2 => exact ih w c (f + 1)

theorem synchronize_relationships_ok (env : Env) (dlt imap : List (Str × Str)) (w : World) :
    ∃ w2 c f, synchronize_relationships env (some dlt) imap w = (w2, .ok (c, f)) ∧
      w2.sessions = w.sessions ∧ w2.mappings = w.mappings := by
  simp only [synchronize_relationships]
  cases env.get_all_issue_links (imap.map Prod.fst) with
  | error e => exact ⟨w, 0, 0, rfl, rfl, rfl⟩
  | ok links =>
    cases env.get_all_epic_links (imap.map Prod.fst) with
    | error e =>
      refine ⟨_, _, _, rfl, ?_, ?_⟩
      · exact (linkLoop_inv env imap
          (create_link_type_mapping (sourceLinkTypes links) dlt) dlt links w 0 0).1
      · exact (linkLoop_inv env imap
          (create_link_type_mapping (sourceLinkTypes links) dlt) dlt links w 0 0).2
    | ok epics =>
      refine ⟨_, _, _, rfl, ?_, ?_⟩
      · exact ((epicLoop_inv env imap epics _ _ _).1).trans
          ((linkLoop_inv env imap
            (create_link_type_mapping (sourceLinkTypes links) dlt) dlt links w 0 0).1)
      · exact ((epicLoop_inv env imap epics _ _ _).2).trans
          ((linkLoop_inv env imap
            (create_link_type_mapping (sourceLinkTypes links) dlt) dlt links w 0 0).2)

theorem get_sync_session_create_fresh (w : World) (sid sp dp ty : Str)
    (hfresh : ∀ p ∈ w.sessions, p.1 ≠ sid) :
    get_sync_session (create_sync_session w sid sp dp ty) sid =
      some ⟨sp, dp, ty, toL "running", none⟩ := by
  simp only [get_sync_session, create_sync_session, List.find?_append]
  have hnone : w.sessions.find? (fun p => p.1 == sid) = none := by
    rw [List.find?_eq_none]
    intro p hp
    simp [hfresh p hp]
  rw [hnone]
  simp [List.find?]

theorem get_sync_session_fail (w : World) (sid m : Str) :
    get_sync_session (fail_sync_session w sid m) sid =
      (get_sync_session w sid).map fun r =>
        { r with status := toL "failed", error_message := some m } := by
  simp only [get_sync_session, fail_sync_session]
  induction w.sessions with
  | nil => rfl
  | cons p rest ih =>
    by_cases h : p.1 = sid
    · simp [List.find?_cons, h]
    · simp only [List.map_cons, if_neg h, List.find?_cons]
      have hbe : (p.1 == sid) = false := by simp [h]
      rw [hbe]
      exact ih

theorem get_sync_session_complete (w : World) (sid : Str) :
    get_sync_session (complete_sync_session w sid) sid =
      (get_sync_session w sid).map fun r => { r with status := toL "completed" } := by
  simp only [get_sync_session, complete_sync_session]
  induction w.sessions with
  | nil => rfl
  | cons p rest ih =>
    by_cases h : p.1 = sid
    · simp [List.find?_cons, h]
    · simp only [List.map_cons, if_neg h, List.find?_cons]
      have hbe : (p.1 == sid) = false := by simp [h]
      rw [hbe]
      exact ih

/-- C2: fork_project never propagates an exception: when no phase fails
the session completes and the result is a success; when a phase fails the
stored session record is marked failed with the captured message and the
returned SyncResult has success = false carrying that same message. -/
theorem C2_fork_error_boundary (env : Env) (w : World) (sid sp dp : Str)
    (start_from : Option Str) (hfresh : ∀ p ∈ w.sessions, p.1 ≠ sid) :
    match fork_phase_error env dp with
    | none =>
      (fork_project env w sid sp dp start_from).2.success = true ∧
      (fork_project env w sid sp dp start_from).2.error_message = none ∧
      (get_sync_session (fork_project env w sid sp dp start_from).1 sid).map
        SessionRec.status = some (toL "completed")
    | some m =>
      (fork_project env w sid sp dp start_from).2.success = false ∧
      (fork_project env w sid sp dp start_from).2.error_message = some m ∧
      (get_sync_session (fork_project env w sid sp dp start_from).1 sid).map
        SessionRec.status = some (toL "failed") ∧
      (get_sync_session (fork_project env w sid sp dp start_from).1 sid).map
        SessionRec.error_message = some (some m) := by
  have hcreate := get_sync_session_create_fresh w sid sp dp (toL "fork") hfresh
  simp only [fork_project, fork_phase_error]
  cases hA : analyze_source_project env with
  | error e =>
    dsimp only
    refine ⟨rfl, rfl, ?_, ?_⟩
    · rw [get_sync_session_fail, hcreate]
      rfl
    · rw [get_sync_session_fail, hcreate]
      rfl
  | ok analysis =>
    dsimp only
    cases hS : setup_destination_project env dp analysis with
    | error e =>
      dsimp only
      refine ⟨rfl, rfl, ?_, ?_⟩
      · rw [get_sync_session_fail, hcreate]
        rfl
      · rw [get_sync_session_fail, hcreate]
        rfl
    | ok maps =>
      dsimp only
      cases hI : env.get_issues_in_order with
      | error e =>
        have hseq : process_issues_sequentially env (some maps) sid sp dp start_from
            (create_sync_session w sid sp dp (toL "fork")) =
            (create_sync_session w sid sp dp (toL "fork"),
             .error (toL "Failed to process issues: " ++ e)) := by
          simp only [process_issues_sequentially, hI]
        rw [hseq]
        dsimp only
        refine ⟨rfl, rfl, ?_, ?_⟩
        · rw [get_sync_session_fail, hcreate]
          rfl
        · rw [get_sync_session_fail, hcreate]
          rfl
      | ok issues =>
        obtain ⟨w2, acc, hseq, hsess⟩ := process_issues_sequentially_ok env (some maps)
          sid sp dp start_from (create_sync_session w sid sp dp (toL "fork")) issues hI
        rw [hseq]
        dsimp only
        obtain ⟨w3, c, f, hrel, hsess3, hmap3⟩ := synchronize_relationships_ok env
          maps.dest_link_types acc.issue_mapping w2
        rw [hrel]
        dsimp only
        refine ⟨rfl, rfl, ?_⟩
        rw [get_sync_session_complete]
        have hw3 : get_sync_session w3 sid = some ⟨sp, dp, toL "fork", toL "running", none⟩ := by
          simp only [get_sync_session] at hcreate ⊢
          rw [hsess3, hsess]
          exact hcreate
        rw [hw3]
        rfl

/-- Witness for C2: a concrete environment in which the analysis phase
fails. -/
theorem C2_fork_error_boundary_witness :
    (fork_project dummyEnv emptyWorld (toL "S0") (toL "A") (toL "B") none).2.success
        = false ∧
    (fork_project dummyEnv emptyWorld (toL "S0") (toL "A") (toL "B") none).2.error_message
        = some (toL "Failed to analyze source project: down") ∧
    (get_sync_session (fork_project dummyEnv emptyWorld (toL "S0") (toL "A") (toL "B")
        none).1 (toL "S0")).map SessionRec.status = some (toL "failed") := by
  have h := C2_fork_error_boundary dummyEnv emptyWorld (toL "S0") (toL "A") (toL "B") none
    (by simp [emptyWorld])
  have hpe : fork_phase_error dummyEnv (toL "B") =
      some (toL "Failed to analyze source project: down") := by decide
  simp only [hpe] at h
  exact ⟨h.1, h.2.1, h.2.2.1⟩

theorem process_single_ok (env : Env) (maps : SchemaMappings) (sid dp : Str) (w : World)
    (iss : Issue) (dts : List DestEntity) (d : Str)
    (hT : env.get_issue_types_for_project = .ok dts)
    (hc : env.create_issue iss = .ok d) :
    process_single_issue env (some maps) sid dp w iss =
      ({ w with
          mappings := upsertMapping w.mappings sid iss.key d,
          createdIssues := w.createdIssues ++ [(iss.key, payloadFor maps dts dp iss)] },
       .ok ⟨iss.key, d, attCount env iss d, comCount env iss d⟩) := by
  simp only [process_single_issue, hT, hc, payloadFor, add_issue_mapping]

theorem process_single_err (env : Env) (maps : SchemaMappings) (sid dp : Str) (w : World)
    (iss : Issue) (dts : List DestEntity) (e : Str)
    (hT : env.get_issue_types_for_project = .ok dts)
    (hc : env.create_issue iss = .error e) :
    process_single_issue env (some maps) sid dp w iss =
      ({ w with createdIssues := w.createdIssues ++ [(iss.key, payloadFor maps dts dp iss)] },
       .error (toL "Failed to process issue " ++ iss.key ++ toL ": " ++ e)) := by
  simp only [process_single_issue, hT, hc, payloadFor]

theorem seqLoop_char (env : Env) (maps : SchemaMappings) (sid dp : Str) (total : Nat)
    (dts : List DestEntity) (hT : env.get_issue_types_for_project = .ok dts) :
    ∀ (issues : List Issue) (i : Nat) (w : World) (acc : SeqRes),
      (seqLoop env (some maps) sid dp total issues i w acc).2.issues_processed =
          acc.issues_processed + issues.countP (fun iss => createOk env iss) ∧
      (seqLoop env (some maps) sid dp total issues i w acc).2.issue_mapping =
          (issues.filterMap fun iss =>
            match env.create_issue iss with
            | .ok d => some (iss.key, d)
            | .error _ => none).foldl (fun m p => dictSet m p.1 p.2) acc.issue_mapping ∧
      (seqLoop env (some maps) sid dp total issues i w acc).1.mappings =
          (issues.filterMap fun iss =>
            match env.create_issue iss with
            | .ok d => some (iss.key, d)
            | .error _ => none).foldl (fun t p => upsertMapping t sid p.1 p.2) w.mappings := by
  intro issues
  induction issues with
  | nil =>
    intro i w acc
    exact ⟨by simp [seqLoop], by simp [seqLoop], by simp [seqLoop]⟩
  | cons iss rest ih =>
    intro i w acc
    simp only [seqLoop]
    have hwc : (if i % env.batch_size == 0 then
        create_checkpoint w sid (toL "issue_processing") i total (some iss.key)
      else w).mappings = w.mappings := by
      split_ifs <;> rfl
    cases hc : env.create_issue iss with
    | ok d =>
      rw [process_single_ok env maps sid dp _ iss dts d hT hc]
      dsimp only
      refine ⟨?_, ?_, ?_⟩
      · rw [(ih _ _ _).1]
        have hco : createOk env iss = true := by simp [createOk, hc]
        simp only [List.countP_cons, hco]
        split_ifs with hif
        · omega
        · simp at hif
      · rw [(ih _ _ _).2.1]
        simp only [List.filterMap_cons, hc, List.foldl_cons]
      · rw [(ih _ _ _).2.2]
        simp only [List.filterMap_cons, hc, List.foldl_cons, hwc]
    | error e =>
      rw [process_single_err env maps sid dp _ iss dts e hT hc]
      dsimp only
      refine ⟨?_, ?_, ?_⟩
      · rw [(ih _ _ _).1]
        have hco : createOk env iss = false := by simp [createOk, hc]
        simp [List.countP_cons, hco]
      · rw [(ih _ _ _).2.1]
        simp only [List.filterMap_cons, hc]
      · rw [(ih _ _ _).2.2]
        simp only [List.filterMap_cons, hc, hwc]

theorem mem_upsertMapping (t : List MappingRow) (sid0 k0 d0 : Str) (s k : Str) :
    (∃ d, (⟨s, k, d⟩ : MappingRow) ∈ upsertMapping t sid0 k0 d0) ↔
      ((s = sid0 ∧ k = k0) ∨ ∃ d, (⟨s, k, d⟩ : MappingRow) ∈ t) := by
  induction t with
  | nil =>
    simp only [upsertMapping, List.mem_singleton, List.not_mem_nil, MappingRow.mk.injEq]
    constructor
    · rintro ⟨d, hs, hk, hd⟩
      exact Or.inl ⟨hs, hk⟩
    · rintro (⟨hs, hk⟩ | ⟨d, hd⟩)
      · exact ⟨d0, hs, hk, rfl⟩
      · exact absurd hd (by simp)
  | cons r rest ih =>
    simp only [upsertMapping]
    split_ifs with h
    · constructor
      · rintro ⟨d, hd⟩
        rcases List.mem_cons.mp hd with h2 | h2
        · rw [MappingRow.mk.injEq] at h2
          exact Or.inl ⟨h2.1, h2.2.1⟩
        · exact Or.inr ⟨d, List.mem_cons_of_mem r h2⟩
      · rintro (⟨hs, hk⟩ | ⟨d, hd⟩)
        · exact ⟨d0, by rw [hs, hk]; exact List.mem_cons_self _ _⟩
        · rcases List.mem_cons.mp hd with h2 | h2
          · have hs : s = sid0 := by rw [← h2] at h; exact h.1
            have hk : k = k0 := by rw [← h2] at h; exact h.2
            exact ⟨d0, by rw [hs, hk]; exact List.mem_cons_self _ _⟩
          · exact ⟨d, List.mem_cons_of_mem _ h2⟩
    · constructor
      · rintro ⟨d, hd⟩
        rcases List.mem_cons.mp hd with h2 | h2
        · exact Or.inr ⟨d, h2 ▸ List.mem_cons_self r rest⟩
        · rcases ih.mp ⟨d, h2⟩ with h3 | ⟨d2, hd2⟩
          · exact Or.inl h3
          · exact Or.inr ⟨d2, List.mem_cons_of_mem r hd2⟩
      · rintro (⟨hs, hk⟩ | ⟨d, hd⟩)
        · obtain ⟨d2, hd2⟩ := ih.mpr (Or.inl ⟨hs, hk⟩)
          exact ⟨d2, List.mem_cons_of_mem r hd2⟩
        · rcases List.mem_cons.mp hd with h2 | h2
          · exact ⟨d, h2 ▸ List.mem_cons_self r (upsertMapping rest sid0 k0 d0)⟩
          · obtain ⟨d2, hd2⟩ := ih.mpr (Or.inr ⟨d, h2⟩)
            exact ⟨d2, List.mem_cons_of_mem r hd2⟩

theorem mem_upsertFold (sid0 s k : Str) :
    ∀ (ps : List (Str × Str)) (t : List MappingRow),
      ((∃ d, (⟨s, k, d⟩ : MappingRow) ∈
          ps.foldl (fun t p => upsertMapping t sid0 p.1 p.2) t) ↔
        ((s = sid0 ∧ k ∈ ps.map Prod.fst) ∨ ∃ d, (⟨s, k, d⟩ : MappingRow) ∈ t)) := by
  intro ps
  induction ps with
  | nil => intro t; simp
  | cons p rest ih =>
    intro t
    simp only [List.foldl_cons, List.map_cons, List.mem_cons]
    rw [ih, mem_upsertMapping]
    tauto

theorem mem_keys_dictSet (m : List (Str × Str)) (a v k : Str) :
    k ∈ (dictSet m a v).map Prod.fst ↔ k ∈ m.map Prod.fst ∨ k = a := by
  induction m with
  | nil => simp [dictSet]
  | cons p rest ih =>
    rcases p with ⟨pk, pv⟩
    simp only [dictSet]
    split_ifs with h
    · subst h
      simp only [List.map_cons, List.mem_cons]
      tauto
    · simp only [List.map_cons, List.mem_cons, ih]
      tauto

theorem mem_keys_dictSetFold (k : Str) :
    ∀ (ps : List (Str × Str)) (m : List (Str × Str)),
      (k ∈ (ps.foldl (fun d p => dictSet d p.1 p.2) m).map Prod.fst ↔
        k ∈ m.map Prod.fst ∨ k ∈ ps.map Prod.fst) := by
  intro ps
  induction ps with
  | nil => intro m; simp
  | cons p rest ih =>
    intro m
    simp only [List.foldl_cons, List.map_cons, List.mem_cons, ih, mem_keys_dictSet]
    tauto

theorem mem_succKeys (env : Env) (issues : List Issue) (k : Str) :
    (k ∈ (issues.filterMap fun iss =>
        match env.create_issue iss with
        | .ok d => some (iss.key, d)
        | .error _ => none).map Prod.fst) ↔
      ∃ iss ∈ issues, iss.key = k ∧ createOk env iss = true := by
  simp only [List.mem_map, List.mem_filterMap]
  constructor
  · rintro ⟨⟨k2, d⟩, ⟨iss, hmem, hf⟩, hk⟩
    rcases hc : env.create_issue iss with e | d2
    · rw [hc] at hf
      exact Option.noConfusion hf
    · simp only [hc, Option.some.injEq, Prod.mk.injEq] at hf
      refine ⟨iss, hmem, ?_, by simp [createOk, hc]⟩
      rw [hf.1]; exact hk
  · rintro ⟨iss, hmem, hkey, hok⟩
    rcases hc : env.create_issue iss with e | d2
    · simp [createOk, hc] at hok
    · exact ⟨(iss.key, d2), ⟨iss, hmem, by rw [hc]⟩, hkey⟩

theorem countP_single_failure (env : Env) (issues : List Issue) (k0 : Str)
    (hnd : (issues.map Issue.key).Nodup) (hk0 : k0 ∈ issues.map Issue.key)
    (hfail : ∀ iss ∈ issues, (createOk env iss = false ↔ iss.key = k0)) :
    issues.countP (fun iss => createOk env iss) = issues.length - 1 := by
  have h1 : issues.countP (fun iss => decide (iss.key = k0)) = 1 := by
    have hc : issues.countP (fun iss => decide (iss.key = k0)) =
        (issues.map Issue.key).countP (fun x => decide (x = k0)) := by
      rw [List.countP_map]; rfl
    have hcc : (issues.map Issue.key).countP (fun x => decide (x = k0)) =
        @List.count Str instBEqOfDecidableEq k0 (issues.map Issue.key) := rfl
    rw [hc, hcc]
    exact List.count_eq_one_of_mem hnd hk0
  have h2 : issues.countP (fun iss => decide (¬ createOk env iss = true)) =
      issues.countP (fun iss => decide (iss.key = k0)) := by
    apply List.countP_congr
    intro iss hm
    simp only [decide_eq_true_eq, Bool.not_eq_true]
    exact hfail iss hm
  have h3 := List.length_eq_countP_add_countP (fun iss => createOk env iss) issues
  rw [h2, h1] at h3
  omega

theorem pis_none_eq (env : Env) (maps : SchemaMappings) (sid sp dp : Str) (w : World)
    (issues : List Issue) (hI : env.get_issues_in_order = .ok issues) :
    process_issues_sequentially env (some maps) sid sp dp none w =
      (save_issue_mapping
        (seqLoop env (some maps) sid dp issues.length issues 0 w ⟨[], 0, 0, 0⟩).1 sid
        (seqLoop env (some maps) sid dp issues.length issues 0 w ⟨[], 0, 0, 0⟩).2.issue_mapping,
       .ok (seqLoop env (some maps) sid dp issues.length issues 0 w ⟨[], 0, 0, 0⟩).2) := by
  simp only [process_issues_sequentially, hI, List.drop_zero]

/-- C1: on the fork path, when the analysis and setup phases succeed and
exactly one of the fetched issues fails its per-issue processing (all
others succeed), the transfer does not abort: the result is a success
whose issues_processed counts every issue but the failing one, the stored
mapping table holds a row for exactly the other issues’ keys, and the
session record ends with status completed. -/
theorem C1_single_failure_not_fatal (env : Env) (w : World) (sid sp dp : Str)
    (an : Analysis) (maps : SchemaMappings) (issues : List Issue)
    (dts : List DestEntity) (k0 : Str)
    (hfresh : ∀ p ∈ w.sessions, p.1 ≠ sid)
    (hwm : w.mappings = [])
    (hA : analyze_source_project env = .ok an)
    (hS : setup_destination_project env dp an = .ok maps)
    (hI : env.get_issues_in_order = .ok issues)
    (hT : env.get_issue_types_for_project = .ok dts)
    (hk0 : k0 ∈ issues.map Issue.key)
    (hnd : (issues.map Issue.key).Nodup)
    (hfail : ∀ iss ∈ issues, (createOk env iss = false ↔ iss.key = k0)) :
    (fork_project env w sid sp dp none).2.success = true ∧
    (fork_project env w sid sp dp none).2.issues_processed = issues.length - 1 ∧
    (∀ k, (∃ d, (⟨sid, k, d⟩ : MappingRow) ∈ (fork_project env w sid sp dp none).1.mappings) ↔
      (k ∈ issues.map Issue.key ∧ k ≠ k0)) ∧
    (get_sync_session (fork_project env w sid sp dp none).1 sid).map SessionRec.status =
      some (toL "completed") := by
  rcases hLe : seqLoop env (some maps) sid dp issues.length issues 0
      (create_sync_session w sid sp dp (toL "fork")) ⟨[], 0, 0, 0⟩ with ⟨w1, acc⟩
  have hch := seqLoop_char env maps sid dp issues.length dts hT issues 0
    (create_sync_session w sid sp dp (toL "fork")) ⟨[], 0, 0, 0⟩
  rw [hLe] at hch
  have hses := seqLoop_sessions env (some maps) sid dp issues.length issues 0
    (create_sync_session w sid sp dp (toL "fork")) ⟨[], 0, 0, 0⟩
  rw [hLe] at hses
  have hpis := pis_none_eq env maps sid sp dp (create_sync_session w sid sp dp (toL "fork"))
    issues hI
  rw [hLe] at hpis
  dsimp only at hch hses hpis
  obtain ⟨w2, lc, lf, hsr, hsrs, hsrm⟩ := synchronize_relationships_ok env
    maps.dest_link_types acc.issue_mapping (save_issue_mapping w1 sid acc.issue_mapping)
  have hfork : fork_project env w sid sp dp none =
      (complete_sync_session w2 sid,
       ⟨true, sid, acc.issues_processed, acc.attachments_transferred,
        acc.comments_synchronized, 0, lc, lf, none⟩) := by
    simp only [fork_project, hA, hS, hpis, hsr]
  refine ⟨?_, ?_, ?_, ?_⟩
  · rw [hfork]
  · rw [hfork]
    show acc.issues_processed = issues.length - 1
    rw [hch.1, countP_single_failure env issues k0 hnd hk0 hfail]
    omega
  · intro k
    rw [hfork]
    show (∃ d, (⟨sid, k, d⟩ : MappingRow) ∈ (complete_sync_session w2 sid).mappings) ↔
      (k ∈ issues.map Issue.key ∧ k ≠ k0)
    have hcm : (complete_sync_session w2 sid).mappings = w2.mappings := rfl
    have hsm : (save_issue_mapping w1 sid acc.issue_mapping).mappings =
        acc.issue_mapping.foldl (fun t p => upsertMapping t sid p.1 p.2) w1.mappings := rfl
    have hcsm : (create_sync_session w sid sp dp (toL "fork")).mappings = w.mappings := rfl
    rw [hcm, hsrm, hsm, hch.2.1, hch.2.2, hcsm, hwm]
    simp only [mem_upsertFold, mem_keys_dictSetFold, mem_succKeys, List.map_nil,
      List.not_mem_nil, exists_false, or_false, false_or, eq_self_iff_true, true_and,
      or_self]
    constructor
    · rintro ⟨iss, hm, hkeq, hok⟩
      refine ⟨List.mem_map.mpr ⟨iss, hm, hkeq⟩, ?_⟩
      intro hkk
      have hcf : createOk env iss = false := (hfail iss hm).mpr (by rw [hkeq, hkk])
      rw [hcf] at hok
      exact Bool.false_ne_true hok
    · rintro ⟨hkm, hkne⟩
      obtain ⟨iss, hm, hkeq⟩ := List.mem_map.mp hkm
      refine ⟨iss, hm, hkeq, ?_⟩
      cases hcc : createOk env iss
      · have hkk := (hfail iss hm).mp hcc
        rw [hkeq] at hkk
        exact absurd hkk hkne
      · rfl
  · rw [hfork]
    show (get_sync_session (complete_sync_session w2 sid) sid).map SessionRec.status =
      some (toL "completed")
    rw [get_sync_session_complete]
    have hw2s : w2.sessions = (create_sync_session w sid sp dp (toL "fork")).sessions := by
      rw [hsrs]
      exact hses
    have hg : get_sync_session w2 sid =
        get_sync_session (create_sync_session w sid sp dp (toL "fork")) sid := by
      simp only [get_sync_session, hw2s]
    rw [hg, get_sync_session_create_fresh w sid sp dp (toL "fork") hfresh]
    rfl

/-- Witness for C1 at the end-to-end scenario of the claim: issues
[P-1 ok, P-2 fails, P-3 ok] with batch size 1 give a successful result
with issues_processed = 2, a stored mapping containing P-1 and P-3 but
not P-2, and a completed session. -/
theorem C1_single_failure_not_fatal_witness :
    (fork_project demoEnvC1 emptyWorld (toL "S0") (toL "PROJ") (toL "DEST") none).2.success
        = true ∧
    (fork_project demoEnvC1 emptyWorld (toL "S0") (toL "PROJ") (toL "DEST")
        none).2.issues_processed = 2 ∧
    (∃ d, (⟨toL "S0", toL "P-1", d⟩ : MappingRow) ∈
      (fork_project demoEnvC1 emptyWorld (toL "S0") (toL "PROJ") (toL "DEST") none).1.mappings) ∧
    (¬ ∃ d, (⟨toL "S0", toL "P-2", d⟩ : MappingRow) ∈
      (fork_project demoEnvC1 emptyWorld (toL "S0") (toL "PROJ") (toL "DEST") none).1.mappings) ∧
    (∃ d, (⟨toL "S0", toL "P-3", d⟩ : MappingRow) ∈
      (fork_project demoEnvC1 emptyWorld (toL "S0") (toL "PROJ") (toL "DEST") none).1.mappings) ∧
    (get_sync_session (fork_project demoEnvC1 emptyWorld (toL "S0") (toL "PROJ") (toL "DEST")
        none).1 (toL "S0")).map SessionRec.status = some (toL "completed") := by
  have h := C1_single_failure_not_fatal demoEnvC1 emptyWorld (toL "S0") (toL "PROJ")
    (toL "DEST")
    ⟨toL "PROJ", 3, [toL "Task"], [], [], [], 0, 0, 0⟩
    ⟨[(toL "Task", toL "10001")], [], [(toL "relates to", toL "10003")]⟩
    demoIssues [⟨toL "Task", toL "10001"⟩] (toL "P-2")
    (by decide) rfl rfl rfl rfl rfl (by decide) (by decide) (by decide)
  refine ⟨h.1, h.2.1, ?_, ?_, ?_, h.2.2.2⟩
  · exact (h.2.2.1 (toL "P-1")).mpr ⟨by decide, by decide⟩
  · intro hx
    exact absurd ((h.2.2.1 (toL "P-2")).mp hx).2 (by decide)
  · exact (h.2.2.1 (toL "P-3")).mpr ⟨by decide, by decide⟩

/-- C3: the claim does not hold of the code.  main.py builds a fresh
SyncEngine for the resume command, so the engine that runs resume_sync
never ran the setup phase and has no schema-mapping attributes.  In the
concrete crash scenario of the claim (checkpoint recorded with
last-processed key P-1, one mapping row for P-1 already stored), the
resume does not re-attempt creation for P-1 — no create_issue call is ever
made (the per-issue AttributeError is swallowed by the loop, the
dest_link_types AttributeError then aborts relationship sync) — and the
resumed run ends as a failure instead of completing.  The mapping table
keeps its single pre-crash row only because nothing is reprocessed, not
because creation for P-1 was retried. -/
theorem C3_resume_no_reattempt :
    (resume_sync demoEnvC3 demoWorldC3 (toL "S1")).2.success = false ∧
    (resume_sync demoEnvC3 demoWorldC3 (toL "S1")).2.error_message =
      some attrErrDestLinkTypes ∧
    (resume_sync demoEnvC3 demoWorldC3 (toL "S1")).1.createdIssues = [] ∧
    ((resume_sync demoEnvC3 demoWorldC3 (toL "S1")).1.mappings.filter
      fun r => r.sync_id == toL "S1" && r.source_key == toL "P-1") =
      [⟨toL "S1", toL "P-1", toL "D-P-1"⟩] := by
  decide

end JiraFork
